import Mathlib

/-!
Verification development for the Florida property appraiser scraper.

The TypeScript source is shallowly embedded: pure functions become Lean
functions on `String` / `List Char` / `List String`; JavaScript numbers that
only ever hold small integers or exact ratios are modelled as `Nat` / `ℚ`;
fallible code returns `Except`; the effectful scrape lifecycle is modelled by
explicit phase oracles (`ScrapeEnv`) and an event trace for browser release.
Wall-clock timestamps are passed in as data (`TimesV`), since the embedding
does not model real time.  JavaScript string semantics are modelled at the
character level (regex classes `\w` and `\s`, per-character lowercasing for
the Basic Latin range).
-/

namespace AppraiserScraper

/-- The closed error taxonomy of `src/lib/scrapers/utils/errors.ts` (`enum ErrorCode`). -/
inductive ErrorCode where
  | COUNTY_NOT_FOUND
  | COUNTY_DISABLED
  | INVALID_IDENTIFIER_TYPE
  | NAVIGATION_FAILED
  | PAGE_LOAD_TIMEOUT
  | SEARCH_FAILED
  | NO_RESULTS_FOUND
  | MULTIPLE_RESULTS_FOUND
  | EXTRACTION_FAILED
  | MISSING_REQUIRED_FIELD
  | INVALID_DATA_FORMAT
  | BROWSER_LAUNCH_FAILED
  | BROWSER_CRASH
  | TIMEOUT
  | UNKNOWN_ERROR
  | VALIDATION_ERROR
deriving DecidableEq, Repr

/-- String value of each `ErrorCode` enum member (the TS enum is string-valued;
`ScraperErrorInfo.code` is typed `string` in TS, so result objects carry these strings). -/
def ErrorCode.str : ErrorCode → String
  | .COUNTY_NOT_FOUND => "COUNTY_NOT_FOUND"
  | .COUNTY_DISABLED => "COUNTY_DISABLED"
  | .INVALID_IDENTIFIER_TYPE => "INVALID_IDENTIFIER_TYPE"
  | .NAVIGATION_FAILED => "NAVIGATION_FAILED"
  | .PAGE_LOAD_TIMEOUT => "PAGE_LOAD_TIMEOUT"
  | .SEARCH_FAILED => "SEARCH_FAILED"
  | .NO_RESULTS_FOUND => "NO_RESULTS_FOUND"
  | .MULTIPLE_RESULTS_FOUND => "MULTIPLE_RESULTS_FOUND"
  | .EXTRACTION_FAILED => "EXTRACTION_FAILED"
  | .MISSING_REQUIRED_FIELD => "MISSING_REQUIRED_FIELD"
  | .INVALID_DATA_FORMAT => "INVALID_DATA_FORMAT"
  | .BROWSER_LAUNCH_FAILED => "BROWSER_LAUNCH_FAILED"
  | .BROWSER_CRASH => "BROWSER_CRASH"
  | .TIMEOUT => "TIMEOUT"
  | .UNKNOWN_ERROR => "UNKNOWN_ERROR"
  | .VALIDATION_ERROR => "VALIDATION_ERROR"

/-- Opaque payload carried in the `details` slot of an error.  `caughtErr m`
represents a caught non-`ScraperError` JavaScript `Error` with message `m`
(re-wrapped at the scrape boundary). -/
inductive DetailV where
  | noneD
  | strD (s : String)
  | caughtErr (message : String)
deriving DecidableEq, Repr

/-- The `ScraperError` class of `errors.ts` (fields `code`, `message`, `details`,
`countyId`, `identifier`). -/
structure ScraperErrorS where
  code : ErrorCode
  message : String
  details : DetailV := .noneD
  countyId : Option String := none
  identifier : Option String := none
deriving DecidableEq, Repr

/-- `createCountyNotFoundError` from `errors.ts`. -/
def createCountyNotFoundError (countyId : String) : ScraperErrorS :=
  { code := .COUNTY_NOT_FOUND
    message := "County \x27" ++ countyId ++ "\x27 not found in configuration"
    countyId := some countyId }

/-- `createCountyDisabledError` from `errors.ts`. -/
def createCountyDisabledError (countyId : String) : ScraperErrorS :=
  { code := .COUNTY_DISABLED
    message := "County \x27" ++ countyId ++ "\x27 is currently disabled"
    countyId := some countyId }

/-- `createNoResultsError` from `errors.ts`. -/
def createNoResultsError (countyId identifier : String) : ScraperErrorS :=
  { code := .NO_RESULTS_FOUND
    message := "No results found for identifier \x27" ++ identifier ++ "\x27 in " ++ countyId
    countyId := some countyId
    identifier := some identifier }

/-- `createExtractionError` from `errors.ts`. -/
def createExtractionError (countyId field : String) (details : DetailV := .noneD) : ScraperErrorS :=
  { code := .EXTRACTION_FAILED
    message := "Failed to extract " ++ field ++ " from page"
    details := details
    countyId := some countyId }

/-- The `IdentifierType` union of `types/scraper.ts`. -/
inductive IdentifierType where
  | parcelId
  | folio
  | address
  | ownerName
deriving DecidableEq, Repr

/-- `ScrapeRequest` of `types/scraper.ts`. -/
structure ScrapeRequest where
  countyId : String
  identifierType : IdentifierType
  identifier : String
deriving DecidableEq, Repr

/-- The `mailingAddress` field of `PropertyOwnerData` (`MailingAddress | string`). -/
inductive MailingAddressV where
  | str (s : String)
  | structured (street city state zipCode : String) (raw : Option String)
deriving DecidableEq, Repr

/-- JavaScript truthiness of `data.mailingAddress`: an object is always truthy,
a string is truthy iff non-empty. -/
def MailingAddressV.truthy : MailingAddressV → Prop
  | .str s => s ≠ ""
  | .structured _ _ _ _ _ => True

instance : DecidablePred MailingAddressV.truthy := by
  intro a; cases a <;> simp [MailingAddressV.truthy] <;> infer_instance

/-- `PropertyOwnerData` of `types/scraper.ts` (the optional `additionalData`
bag is not modelled; no claim mentions it). -/
structure PropertyOwnerData where
  ownerNames : List String
  mailingAddress : MailingAddressV
  countyId : String
  identifier : String
  identifierType : IdentifierType
  scrapedAt : String
deriving DecidableEq, Repr

/-- `CountyConfig` of `types/scraper.ts` (locator strings are not needed by
any claim and are omitted; `timeout` and friends are kept where referenced). -/
structure CountyConfig where
  id : String
  name : String := ""
  searchUrl : String := ""
  appraiserUrl : String := ""
  enabled : Bool := true
  timeout : Option Nat := none
deriving DecidableEq, Repr

/-- `ScraperErrorInfo` of `types/scraper.ts` (`code` is typed `string` there:
result objects carry the enum value string, and `TestRunner` also stores the
non-enum string `TEST_EXECUTION_ERROR` in this slot). -/
structure ScraperErrorInfo where
  code : String
  message : String
  details : DetailV := .noneD
deriving DecidableEq, Repr

/-- `ScrapeMetadata` of `types/scraper.ts`. -/
structure ScrapeMetadata where
  countyId : String
  identifier : String
  identifierType : IdentifierType
  startTime : String
  endTime : String
  duration : Nat
deriving DecidableEq, Repr

/-- `ScrapeResult` of `types/scraper.ts`. -/
structure ScrapeResult where
  success : Bool
  data : Option PropertyOwnerData := none
  error : Option ScraperErrorInfo := none
  metadata : ScrapeMetadata
deriving DecidableEq, Repr

/-! ## Identifier transform (PascoScraper.transformParcelId, counties/osceola.ts) -/

/-- Strip every character outside `0-9`, as `replace(/[^0-9]/g, "")` does. -/
def jsStripNonDigits (s : String) : String :=
  String.mk (s.data.filter Char.isDigit)

/-- Split a character list at every occurrence of the separator character,
keeping empty pieces, as JavaScript `split` with a one-character separator
does (so the empty string splits to `[""]`). -/
def splitOnChar (sep : Char) : List Char → List (List Char)
  | [] => [[]]
  | c :: cs =>
    if c = sep then [] :: splitOnChar sep cs
    else
      match splitOnChar sep cs with
      | [] => [[c]]
      | w :: ws => (c :: w) :: ws

/-- JavaScript `s.split(sep)` for a one-character separator. -/
def jsSplit (s : String) (sep : Char) : List String :=
  (splitOnChar sep s.data).map String.mk

/-- `PascoScraper.transformParcelId`: split the parcel id on `-`; with fewer
than 3 segments raise `VALIDATION_ERROR` carrying the raw value; otherwise
rearrange the first three segments `[A,B,C,...rest]` to `[C,B,A,...rest]`,
re-join with `-`, and strip all non-numeric characters. -/
def transformParcelId (cfg : CountyConfig) (parcelId : String) : Except ScraperErrorS String :=
  if (jsSplit parcelId '-').length < 3 then
    .error
      { code := .VALIDATION_ERROR
        message := "Invalid Pasco parcelId format: " ++ parcelId ++
          ". Expected format: XX-XX-XX-XXXX-XXXXX-XXXX"
        countyId := some cfg.id
        identifier := some parcelId }
  else
    .ok (jsStripNonDigits (String.intercalate "-"
      ([(jsSplit parcelId '-').getD 2 "", (jsSplit parcelId '-').getD 1 "",
        (jsSplit parcelId '-').getD 0 ""] ++ (jsSplit parcelId '-').drop 3)))

/-- Modelled from the spec: reorder positional segments `[A,B,C,...rest]` to
`[C,B,A,...rest]`; undefined (`none`) when fewer than three segments exist. -/
def specReorderSegments : List String → Option (List String)
  | a :: b :: c :: rest => some (c :: b :: a :: rest)
  | _ => none

/-! ## Multi-record merge (ClayScraper.extractPropertyData, counties/clay.ts) -/

/-- Owner blocks are merged by joining the owner names with a newline, in
document order (`ownerNames.join("\n")`). -/
def mergeOwnerNames (names : List String) : String :=
  String.intercalate "\n" names

/-- JavaScript `[...new Set(addresses)]`: fold left over the candidates,
appending each one the first time it is seen (Set insertion order). -/
def jsSetDedup (l : List String) : List String :=
  l.foldl (fun acc a => if a ∈ acc then acc else acc ++ [a]) []

/-- The merged address: deduplicated candidates joined with a newline
(`uniqueAddresses.join("\n")`). -/
def mergeAddresses (addrs : List String) : String :=
  String.intercalate "\n" (jsSetDedup addrs)

/-- Modelled from the spec: remove duplicates keeping the first occurrence,
order otherwise preserved. -/
def specDedupFirst : List String → List String
  | [] => []
  | a :: rest => a :: specDedupFirst (rest.filter (fun b => decide (b ≠ a)))
termination_by l => l.length
decreasing_by
  simp only [List.length_cons]
  exact Nat.lt_succ_of_le (List.length_filter_le _ _)

/-! ## Scrape lifecycle (BaseScraper.scrape and the county overrides of it) -/

/-- An error raised inside a scrape attempt: either an already classified
`ScraperError`, or any other JavaScript `Error` identified by its message. -/
inductive SrcError where
  | scraper (e : ScraperErrorS)
  | plain (message : String)
deriving DecidableEq, Repr

/-- Browser-driver session token. -/
abbrev BrowserT := Nat

/-- Page token. -/
abbrev PageT := Nat

/-- Oracles for the effectful lifecycle phases of a scrape attempt.  Each
phase either yields a value or raises an error; the oracle records what the
external browser driver and the strategy hooks would do on this run. -/
structure ScrapeEnv where
  setupBrowser : Except SrcError BrowserT
  createPage : BrowserT → Except SrcError PageT
  navigateToSearch : PageT → Except SrcError Unit
  performSearch : PageT → Except SrcError Unit
  waitForResults : PageT → Except SrcError Unit
  extractPropertyData : PageT → Except SrcError PropertyOwnerData

/-- `BaseScraper.validatePropertyData`: fails with `createExtractionError` when
`ownerNames` is missing/empty, then when `mailingAddress` is falsy. -/
def validatePropertyData (cfg : CountyConfig) (data : PropertyOwnerData) :
    Except SrcError Unit :=
  if data.ownerNames.length = 0 then
    .error (.scraper (createExtractionError cfg.id "ownerNames" (.strD "No owner names found")))
  else if ¬ data.mailingAddress.truthy then
    .error (.scraper (createExtractionError cfg.id "mailingAddress" (.strD "No mailing address found")))
  else
    .ok ()

/-- Wall-clock data for one attempt (`startTime`, `endTime`, `duration`). -/
structure TimesV where
  startTime : String
  endTime : String
  duration : Nat
deriving DecidableEq, Repr

/-- The catch block of `BaseScraper.scrape` (lines 70 to 102): keep a
`ScraperError` as is, otherwise wrap into `UNKNOWN_ERROR` carrying the
original error as detail plus the county id and identifier. -/
def toScraperError (cfg : CountyConfig) (req : ScrapeRequest) : SrcError → ScraperErrorS
  | .scraper e => e
  | .plain m =>
      { code := .UNKNOWN_ERROR
        message := m
        details := .caughtErr m
        countyId := some cfg.id
        identifier := some req.identifier }

/-- Metadata attached to every outcome of `BaseScraper.scrape`. -/
def mkMetadata (cfg : CountyConfig) (req : ScrapeRequest) (t : TimesV) : ScrapeMetadata :=
  { countyId := cfg.id
    identifier := req.identifier
    identifierType := req.identifierType
    startTime := t.startTime
    endTime := t.endTime
    duration := t.duration }

/-- The failure result object built by the catch block. -/
def failureResult (cfg : CountyConfig) (req : ScrapeRequest) (t : TimesV) (e : SrcError) :
    ScrapeResult :=
  { success := false
    error := some
      { code := (toScraperError cfg req e).code.str
        message := (toScraperError cfg req e).message
        details := (toScraperError cfg req e).details }
    metadata := mkMetadata cfg req t }

/-- The success result object of `BaseScraper.scrape`. -/
def successResult (cfg : CountyConfig) (req : ScrapeRequest) (t : TimesV)
    (d : PropertyOwnerData) : ScrapeResult :=
  { success := true
    data := some d
    metadata := mkMetadata cfg req t }

/-- The body of the `try` block of `BaseScraper.scrape` after browser setup:
each awaited phase propagates its exception, extraction feeds validation, and
the validated data is returned. -/
def scrapeAttempt (cfg : CountyConfig) (env : ScrapeEnv) (b : BrowserT) :
    Except SrcError PropertyOwnerData :=
  match env.createPage b with
  | .error e => .error e
  | .ok page =>
    match env.navigateToSearch page with
    | .error e => .error e
    | .ok _ =>
      match env.performSearch page with
      | .error e => .error e
      | .ok _ =>
        match env.waitForResults page with
        | .error e => .error e
        | .ok _ =>
          match env.extractPropertyData page with
          | .error e => .error e
          | .ok data =>
            match validatePropertyData cfg data with
            | .error e => .error e
            | .ok _ => .ok data

/-- `BaseScraper.scrape`: the try/catch/finally lifecycle.  The first
component is the returned `ScrapeResult`; the second lists the browsers passed
to `closeBrowser` by the `finally` block (the local `browser` starts null and
is closed exactly when it was assigned). -/
def scrape (cfg : CountyConfig) (req : ScrapeRequest) (t : TimesV) (env : ScrapeEnv) :
    ScrapeResult × List BrowserT :=
  match env.setupBrowser with
  | .error e => (failureResult cfg req t e, [])
  | .ok b =>
    match scrapeAttempt cfg env b with
    | .ok d => (successResult cfg req t d, [b])
    | .error e => (failureResult cfg req t e, [b])

/-- Modelled from the spec: the first lifecycle phase that raises, in the
fixed order browser setup, page creation, navigation, search, readiness wait,
extraction, validation; `none` when every phase succeeds. -/
def firstFailure (cfg : CountyConfig) (env : ScrapeEnv) : Option SrcError :=
  match env.setupBrowser with
  | .error e => some e
  | .ok b =>
    match env.createPage b with
    | .error e => some e
    | .ok page =>
      match env.navigateToSearch page with
      | .error e => some e
      | .ok _ =>
        match env.performSearch page with
        | .error e => some e
        | .ok _ =>
          match env.waitForResults page with
          | .error e => some e
          | .ok _ =>
            match env.extractPropertyData page with
            | .error e => some e
            | .ok data =>
              match validatePropertyData cfg data with
              | .error e => some e
              | .ok _ => none

/-- Post-extraction checks of `ClayScraper.extractPropertyData` (after the
in-page merge): a falsy merged owner string raises `NO_RESULTS_FOUND`, then a
falsy merged address raises `EXTRACTION_FAILED`, otherwise the
`PropertyOwnerData` record is built from the merged strings. -/
def clayFinishExtraction (cfg : CountyConfig) (req : ScrapeRequest) (scrapedAt : String)
    (ownerName mailingAddress : String) : Except SrcError PropertyOwnerData :=
  if ownerName = "" then
    .error (.scraper (createNoResultsError cfg.id req.identifier))
  else if mailingAddress = "" then
    .error (.scraper
      { code := .EXTRACTION_FAILED
        message := "Failed to extract mailing address"
        countyId := some cfg.id
        identifier := some req.identifier })
  else
    .ok
      { ownerNames := [ownerName]
        mailingAddress := .str mailingAddress
        countyId := cfg.id
        identifier := req.identifier
        identifierType := req.identifierType
        scrapedAt := scrapedAt }

/-- Phase oracles for a run whose infrastructure phases all succeed and whose
extraction hook finishes with the given result. -/
def okEnvWith (extract : Except SrcError PropertyOwnerData) : ScrapeEnv :=
  { setupBrowser := .ok 0
    createPage := fun _ => .ok 0
    navigateToSearch := fun _ => .ok ()
    performSearch := fun _ => .ok ()
    waitForResults := fun _ => .ok ()
    extractPropertyData := fun _ => extract }

/-! ## Text normalization and similarity (lib/testing/TestRunner.ts) -/

/-- The JavaScript regex class `\s` (whitespace), per character. -/
def isJsSpace (c : Char) : Bool :=
  c = ' ' || c = '\t' || c = '\n' || c = '\r' || c = '\x0b' || c = '\x0c' ||
  c.toNat = 0xA0 || c.toNat = 0x1680 || (0x2000 ≤ c.toNat && c.toNat ≤ 0x200A) ||
  c.toNat = 0x2028 || c.toNat = 0x2029 || c.toNat = 0x202F || c.toNat = 0x205F ||
  c.toNat = 0x3000 || c.toNat = 0xFEFF

/-- The JavaScript regex class `\w`: ASCII letters, digits and the underscore. -/
def isWordChar (c : Char) : Bool :=
  c.isAlphanum || c = '_'

/-- `String.prototype.trim`: drop leading and trailing whitespace. -/
def jsTrim (l : List Char) : List Char :=
  ((l.dropWhile isJsSpace).reverse.dropWhile isJsSpace).reverse

/-- One pass of `replace(/\s+/g, " ")`: the flag records whether the scanner
is inside a whitespace run (whose first character already emitted the single
replacement space). -/
def collapseGo (inRun : Bool) : List Char → List Char
  | [] => []
  | c :: cs =>
    if isJsSpace c then
      if inRun then collapseGo true cs
      else ' ' :: collapseGo true cs
    else c :: collapseGo false cs

/-- `replace(/\s+/g, " ")`: every maximal whitespace run becomes one space. -/
def collapseWS (l : List Char) : List Char :=
  collapseGo false l

/-- `replace(/[^\w\s]/g, "")`: strip punctuation, keeping word and whitespace
characters. -/
def stripPunct (l : List Char) : List Char :=
  l.filter (fun c => isWordChar c || isJsSpace c)

/-- `normalizeText` of `TestRunner.ts`: lowercase, trim, collapse whitespace
runs to one space, strip punctuation — in that order.  Lowercasing is
modelled per character on the Basic Latin range (the only characters that can
survive the `\w` / `\s` filter anyway). -/
def normList (l : List Char) : List Char :=
  stripPunct (collapseWS (jsTrim (l.map Char.toLower)))

/-- `normalizeText`, packaged on `String`. -/
def normalizeText (s : String) : String :=
  String.mk (normList s.data)

/-- A character that can appear in fully normalized text: a word character
(never whitespace) or the plain space. -/
def okChar (c : Char) : Prop :=
  (isWordChar c = true ∧ isJsSpace c = false) ∨ c = ' '

/-- No two adjacent plain spaces. -/
def noTwoSpaces : List Char → Prop
  | [] => True
  | [_] => True
  | a :: b :: t => ¬(a = ' ' ∧ b = ' ') ∧ noTwoSpaces (b :: t)

/-- Canonical (fully normalized) text: every character is a word character or
a single plain space, lowercasing is a no-op, no two spaces are adjacent, and
neither end is whitespace. -/
def canonicalText (l : List Char) : Prop :=
  (∀ c ∈ l, okChar c) ∧ (∀ c ∈ l, Char.toLower c = c) ∧ noTwoSpaces l ∧
  (∀ c, l.head? = some c → isJsSpace c = false) ∧
  (∀ c, l.getLast? = some c → isJsSpace c = false)

/-- The dynamic-programming matrix of `levenshteinDistance`: entry `(i, j)`
exactly as filled by the two loops (row 0 and column 0 are the bases; the
inner cell compares `str2.charAt(i-1)` with `str1.charAt(j-1)` and otherwise
takes `min(diagonal+1, left+1, up+1)`). -/
def levMx (s1 s2 : List Char) : Nat → Nat → Nat
  | 0, j => j
  | i + 1, 0 => i + 1
  | i + 1, j + 1 =>
    if s2.getD i ' ' = s1.getD j ' ' then levMx s1 s2 i j
    else
      min (levMx s1 s2 i j + 1)
        (min (levMx s1 s2 (i + 1) j + 1) (levMx s1 s2 i (j + 1) + 1))
termination_by i j => i + j

/-- `levenshteinDistance` of `TestRunner.ts`: the bottom-right matrix entry
`matrix[str2.length][str1.length]`. -/
def levenshteinDistance (str1 str2 : String) : Nat :=
  levMx str1.data str2.data str2.data.length str1.data.length

/-- `calculateSimilarity` of `TestRunner.ts`; the JavaScript number result is
modelled exactly over `ℚ`. -/
def calculateSimilarity (str1 str2 : String) : ℚ :=
  if normalizeText str1 = normalizeText str2 then 1
  else if max (normalizeText str1).length (normalizeText str2).length = 0 then 1
  else
    1 - (levenshteinDistance (normalizeText str1) (normalizeText str2) : ℚ) /
      (max (normalizeText str1).length (normalizeText str2).length : ℚ)

/-- Modelled from the spec: the textbook minimum-edit-distance recursion over
insert, delete and substitute operations; the `Edits` lemmas below prove it
is the minimum number of such operations. -/
def editDistance : List Char → List Char → Nat
  | [], ys => ys.length
  | x :: xs, [] => (x :: xs).length
  | x :: xs, y :: ys =>
    if x = y then editDistance xs ys
    else
      1 + min (editDistance xs ys)
        (min (editDistance (x :: xs) ys) (editDistance xs (y :: ys)))
termination_by xs ys => xs.length + ys.length

/-- Modelled from the spec: `Edits n xs ys` holds when some script of `n`
insert / delete / substitute operations rewrites `xs` into `ys` (matching
characters may be copied for free). -/
inductive Edits : Nat → List Char → List Char → Prop where
  | nil : Edits 0 [] []
  | copy (a : Char) {n : Nat} {xs ys : List Char} :
      Edits n xs ys → Edits n (a :: xs) (a :: ys)
  | subst (a b : Char) {n : Nat} {xs ys : List Char} :
      Edits n xs ys → Edits (n + 1) (a :: xs) (b :: ys)
  | delete (a : Char) {n : Nat} {xs ys : List Char} :
      Edits n xs ys → Edits (n + 1) (a :: xs) ys
  | insert (b : Char) {n : Nat} {xs ys : List Char} :
      Edits n xs ys → Edits (n + 1) xs (b :: ys)

/-- Modelled from the spec: fold both strings; if the folded strings are equal
(including both empty) the similarity is 1, otherwise
`1 - editDistance / max(length, length)`. -/
def specSimilarity (a b : String) : ℚ :=
  if normalizeText a = normalizeText b then 1
  else
    1 - (editDistance (normalizeText a).data (normalizeText b).data : ℚ) /
      (max (normalizeText a).length (normalizeText b).length : ℚ)

/-! ## Test runner (lib/testing/TestRunner.ts) -/

/-- `TestCase` of `types/test.ts` (persistence-only fields omitted). -/
structure TestCaseV where
  id : String
  name : String
  countyId : String
  identifierType : IdentifierType
  identifier : String
  expectedOwnerName : String
  expectedAddress : String
deriving DecidableEq, Repr

/-- `TestAssertion` of `types/test.ts`. -/
structure TestAssertionV where
  field : String
  expected : String
  actual : String
  passed : Bool
  similarity : ℚ
deriving DecidableEq, Repr

/-- `TestResult` of `types/test.ts` (wall-clock fields `executedAt` and
`duration` are not modelled). -/
structure TestResultV where
  testCaseId : String
  testCaseName : String
  passed : Bool
  scrapeResult : ScrapeResult
  assertions : List TestAssertionV
  error : Option String := none
deriving DecidableEq, Repr

/-- `BatchTestResult` of `types/test.ts` (wall-clock fields not modelled). -/
structure BatchTestResultV where
  totalTests : Nat
  passedTests : Nat
  failedTests : Nat
  results : List TestResultV
deriving DecidableEq, Repr

/-- `scrapeResult.data?.ownerNames.join(", ") || ""`. -/
def ownerActual (sr : ScrapeResult) : String :=
  match sr.data with
  | some d => String.intercalate ", " d.ownerNames
  | none => ""

/-- `typeof mailingAddress === "string" ? mailingAddress : mailingAddress.raw || ""`
(with the optional chain collapsing to the empty string when `data` is absent). -/
def addressActual (sr : ScrapeResult) : String :=
  match sr.data with
  | some d =>
    match d.mailingAddress with
    | .str s => s
    | .structured _ _ _ _ raw => raw.getD ""
  | none => ""

/-- One field assertion as pushed by `runTestCase`: passed iff the similarity
of actual against expected reaches the fixed `0.8` threshold (the exact
rational four fifths). -/
def mkAssertion (fieldName expected actual : String) : TestAssertionV :=
  { field := fieldName
    expected := expected
    actual := actual
    passed := decide (mkRat 4 5 ≤ calculateSimilarity actual expected)
    similarity := calculateSimilarity actual expected }

/-- The message of a raised error (`error instanceof Error ? error.message :
String(error)`). -/
def SrcError.msg : SrcError → String
  | .scraper e => e.message
  | .plain m => m

/-- `scrapeResult.error?.message || "Scrape failed"`. -/
def scrapeFailMessage (sr : ScrapeResult) : String :=
  match sr.error with
  | some e => if e.message = "" then "Scrape failed" else e.message
  | none => "Scrape failed"

/-- `runTestCase` of `TestRunner.ts`.  The oracle stands for config loading,
scraper resolution and the scrape itself: `.error` models an exception thrown
before an outcome exists (handled by the catch branch, which fabricates a
`TEST_EXECUTION_ERROR` result), `.ok` the returned `ScrapeResult`.
Timestamps in the fabricated metadata are not modelled. -/
def runTestCase (oracle : TestCaseV → Except SrcError ScrapeResult) (tc : TestCaseV) :
    TestResultV :=
  match oracle tc with
  | .error e =>
    { testCaseId := tc.id
      testCaseName := tc.name
      passed := false
      scrapeResult :=
        { success := false
          error := some { code := "TEST_EXECUTION_ERROR", message := e.msg }
          metadata :=
            { countyId := tc.countyId, identifier := tc.identifier,
              identifierType := tc.identifierType, startTime := "", endTime := "",
              duration := 0 } }
      assertions := []
      error := some e.msg }
  | .ok sr =>
    if sr.success = false then
      { testCaseId := tc.id
        testCaseName := tc.name
        passed := false
        scrapeResult := sr
        assertions := []
        error := some (scrapeFailMessage sr) }
    else
      { testCaseId := tc.id
        testCaseName := tc.name
        passed := (mkAssertion "ownerName" tc.expectedOwnerName (ownerActual sr)).passed &&
          (mkAssertion "mailingAddress" tc.expectedAddress (addressActual sr)).passed
        scrapeResult := sr
        assertions := [mkAssertion "ownerName" tc.expectedOwnerName (ownerActual sr),
          mkAssertion "mailingAddress" tc.expectedAddress (addressActual sr)]
        error := none }

/-- `runTestCases` of `TestRunner.ts`: the cases are awaited strictly one at a
time in input order, accumulating results and totals. -/
def runTestCases (oracle : TestCaseV → Except SrcError ScrapeResult)
    (cases : List TestCaseV) : BatchTestResultV :=
  { totalTests := cases.length
    passedTests := ((cases.map (runTestCase oracle)).filter (fun r => r.passed)).length
    failedTests := ((cases.map (runTestCase oracle)).filter (fun r => !r.passed)).length
    results := cases.map (runTestCase oracle) }

/-! ## Transport layer (app/api/scrape/route.ts, lib/config/counties.ts) -/

/-- `loadCountyConfig` of `lib/config/counties.ts` over an abstract
configuration map: an unknown county throws `COUNTY_NOT_FOUND`; a known but
disabled county throws `COUNTY_DISABLED` when `checkEnabled`. -/
def loadCountyConfig (configs : String → Option CountyConfig) (countyId : String)
    (checkEnabled : Bool := true) : Except ScraperErrorS CountyConfig :=
  match configs countyId with
  | none => .error (createCountyNotFoundError countyId)
  | some cfg =>
    if checkEnabled && !cfg.enabled then .error (createCountyDisabledError countyId)
    else .ok cfg

/-- The JSON error payload written by the `ScraperError` branch of the POST
`/api/scrape` catch handler. -/
structure ApiErrorBody where
  success : Bool
  code : String
  message : String
  details : DetailV
deriving DecidableEq, Repr

/-- The HTTP status chosen for a thrown `ScraperError` (route.ts line 90):
404 only for `COUNTY_NOT_FOUND`, 500 for every other kind. -/
def scraperErrorStatus (e : ScraperErrorS) : Nat :=
  if e.code = ErrorCode.COUNTY_NOT_FOUND then 404 else 500

/-- The full response of the `ScraperError` catch branch: the classified
error body plus the status. -/
def scraperErrorResponse (e : ScraperErrorS) : ApiErrorBody × Nat :=
  ({ success := false, code := e.code.str, message := e.message, details := e.details },
    scraperErrorStatus e)

/-- A serialized response of the POST `/api/scrape` handler. -/
inductive RouteResponse where
  | scrapeOutcome (r : ScrapeResult) (status : Nat)
  | errorBody (b : ApiErrorBody) (status : Nat)
deriving DecidableEq, Repr

/-- POST `/api/scrape` after request validation: county-config loading throws
into the catch handler; otherwise the scraper runs and its outcome is
serialized with status 200 on success and 500 on failure. -/
def postScrape (configs : String → Option CountyConfig)
    (scrapeOf : CountyConfig → ScrapeRequest → ScrapeResult) (req : ScrapeRequest) :
    RouteResponse :=
  match loadCountyConfig configs req.countyId with
  | .error e => .errorBody (scraperErrorResponse e).1 (scraperErrorResponse e).2
  | .ok cfg => .scrapeOutcome (scrapeOf cfg req) (if (scrapeOf cfg req).success then 200 else 500)

/-! ## Demo fixtures for concrete witnesses -/

/-- A fully populated demo record. -/
def demoOkData : PropertyOwnerData :=
  { ownerNames := ["JOHN DOE"], mailingAddress := .str "1 MAIN ST", countyId := "clay",
    identifier := "A-1", identifierType := .parcelId, scrapedAt := "now" }

/-- Demo metadata. -/
def demoMeta : ScrapeMetadata :=
  { countyId := "clay", identifier := "A-1", identifierType := .parcelId,
    startTime := "s", endTime := "e", duration := 1 }

/-- A successful demo scrape outcome. -/
def demoOkResult : ScrapeResult :=
  { success := true, data := some demoOkData, metadata := demoMeta }

/-- A failed demo scrape outcome. -/
def demoFailResult : ScrapeResult :=
  { success := false,
    error := some { code := "NO_RESULTS_FOUND", message := "no results" },
    metadata := demoMeta }

/-- A demo test case expecting exactly the demo record. -/
def demoCase (i : String) : TestCaseV :=
  { id := i, name := "case " ++ i, countyId := "clay", identifierType := .parcelId,
    identifier := "A-1", expectedOwnerName := "JOHN DOE", expectedAddress := "1 MAIN ST" }

/-- A demo oracle: case `"3"` scrapes to a failure, every other case to the
successful demo outcome. -/
def demoOracle : TestCaseV → Except SrcError ScrapeResult :=
  fun tc => if tc.id = "3" then .ok demoFailResult else .ok demoOkResult

/-! ## Theorems -/

/-- Folding the Set-insertion step over the candidates, starting from any
accumulator, appends exactly the first-seen-order deduplication of the
not-yet-seen candidates. -/
theorem foldl_dedup_eq (l : List String) : ∀ acc : List String,
    l.foldl (fun acc a => if a ∈ acc then acc else acc ++ [a]) acc =
      acc ++ specDedupFirst (l.filter (fun b => decide (b ∉ acc))) := by
  induction l with
  | nil => intro acc; simp [specDedupFirst]
  | cons a rest ih =>
    intro acc
    by_cases h : a ∈ acc
    · have hf : (a :: rest).filter (fun b => decide (b ∉ acc)) =
          rest.filter (fun b => decide (b ∉ acc)) := by simp [h]
      rw [List.foldl_cons, if_pos h, hf, ih acc]
    · have hf : (a :: rest).filter (fun b => decide (b ∉ acc)) =
          a :: rest.filter (fun b => decide (b ∉ acc)) := by simp [h]
      rw [List.foldl_cons, if_neg h, ih (acc ++ [a]), hf]
      simp only [specDedupFirst]
      have hff : (rest.filter (fun b => decide (b ∉ acc ++ [a]))) =
          ((rest.filter (fun b => decide (b ∉ acc))).filter (fun b => decide (b ≠ a))) := by
        rw [List.filter_filter]
        apply List.filter_congr
        intro b _
        simp [List.mem_append, not_or, Bool.and_comm]
      rw [hff]
      simp

/-- C7: the multi-record merge rule of `ClayScraper.extractPropertyData`:
owner names merge to a newline join in document order, and address candidates
are deduplicated keeping the first occurrence (order otherwise preserved)
before the newline join; in particular
`["1 MAIN ST", "1 MAIN ST", "2 OAK AVE"]` merges to `"1 MAIN ST\n2 OAK AVE"`. -/
theorem clay_merge_rule (names addrs : List String) :
    mergeOwnerNames names = String.intercalate "\n" names ∧
    mergeAddresses addrs = String.intercalate "\n" (specDedupFirst addrs) ∧
    mergeAddresses ["1 MAIN ST", "1 MAIN ST", "2 OAK AVE"] = "1 MAIN ST\n2 OAK AVE" := by
  refine ⟨rfl, ?_, by decide⟩
  unfold mergeAddresses jsSetDedup
  rw [foldl_dedup_eq]
  simp

/-- C6: `PascoScraper.transformParcelId` is pure and deterministic: with fewer
than three dash-separated segments it raises `VALIDATION_ERROR` carrying the
raw value and produces no transformed identifier; otherwise it reorders the
first three segments `[A,B,C,...rest]` to `[C,B,A,...rest]`, re-joins with the
dash, and strips all non-numeric characters. -/
theorem transformParcelId_spec (cfg : CountyConfig) (p : String) :
    ((jsSplit p '-').length < 3 →
      transformParcelId cfg p =
        .error
          { code := .VALIDATION_ERROR
            message := "Invalid Pasco parcelId format: " ++ p ++
              ". Expected format: XX-XX-XX-XXXX-XXXXX-XXXX"
            details := .noneD
            countyId := some cfg.id
            identifier := some p } ∧
      specReorderSegments (jsSplit p '-') = none) ∧
    (3 ≤ (jsSplit p '-').length →
      ∃ l, specReorderSegments (jsSplit p '-') = some l ∧
        transformParcelId cfg p = .ok (jsStripNonDigits (String.intercalate "-" l))) := by
  constructor
  · intro h
    refine ⟨by simp only [transformParcelId, if_pos h], ?_⟩
    generalize hp : jsSplit p '-' = parts at h ⊢
    rcases parts with _ | ⟨a, _ | ⟨b, _ | ⟨c, rest⟩⟩⟩
    · rfl
    · rfl
    · rfl
    · exfalso
      simp only [List.length_cons] at h
      omega
  · intro h
    simp only [transformParcelId]
    generalize hp : jsSplit p '-' = parts at h ⊢
    rcases parts with _ | ⟨a, _ | ⟨b, _ | ⟨c, rest⟩⟩⟩ <;>
      simp only [List.length_nil, List.length_cons] at h
    · omega
    · omega
    · omega
    · refine ⟨c :: b :: a :: rest, rfl, ?_⟩
      rw [if_neg (by simp only [List.length_cons]; omega)]
      simp [List.getD]

/-- Witness for C6: the documented Pasco example transforms as specified, and
a 2-segment identifier raises `VALIDATION_ERROR` with the raw value attached. -/
theorem transformParcelId_spec_witness :
    (3 ≤ (jsSplit "22-26-21-0030-00000-0280" '-').length ∧
      (∃ l, specReorderSegments (jsSplit "22-26-21-0030-00000-0280" '-') = some l ∧
        transformParcelId { id := "pasco" } "22-26-21-0030-00000-0280" =
          .ok (jsStripNonDigits (String.intercalate "-" l)))) ∧
    ((jsSplit "22-26" '-').length < 3 ∧
      transformParcelId { id := "pasco" } "22-26" =
        .error
          { code := .VALIDATION_ERROR
            message := "Invalid Pasco parcelId format: 22-26" ++
              ". Expected format: XX-XX-XX-XXXX-XXXXX-XXXX"
            details := .noneD
            countyId := some "pasco"
            identifier := some "22-26" }) ∧
    transformParcelId { id := "pasco" } "22-26-21-0030-00000-0280" =
      .ok "2126220030000000280" := by
  refine ⟨⟨by decide, (transformParcelId_spec { id := "pasco" } _).2 (by decide)⟩,
    ⟨by decide, ((transformParcelId_spec { id := "pasco" } _).1 (by decide)).1⟩, rfl⟩

/-- The spec-side first-failing-phase function agrees with the sequential
attempt body once the browser is acquired. -/
theorem firstFailure_attempt (cfg : CountyConfig) (env : ScrapeEnv) (b : BrowserT)
    (hb : env.setupBrowser = .ok b) :
    (∀ e, scrapeAttempt cfg env b = .error e → firstFailure cfg env = some e) ∧
    (∀ d, scrapeAttempt cfg env b = .ok d → firstFailure cfg env = none) := by
  unfold firstFailure scrapeAttempt
  rw [hb]
  cases h1 : env.createPage b with
  | error e => simp [h1]
  | ok page =>
    cases h2 : env.navigateToSearch page with
    | error e => simp [h1, h2]
    | ok u =>
      cases h3 : env.performSearch page with
      | error e => simp [h1, h2, h3]
      | ok u2 =>
        cases h4 : env.waitForResults page with
        | error e => simp [h1, h2, h3, h4]
        | ok u3 =>
          cases h5 : env.extractPropertyData page with
          | error e => simp [h1, h2, h3, h4, h5]
          | ok data =>
            cases h6 : validatePropertyData cfg data with
            | error e => simp [h1, h2, h3, h4, h5, h6]
            | ok u4 => simp [h1, h2, h3, h4, h5, h6]

/-- C1: `BaseScraper.scrape` always returns a `ScrapeResult` (never throws —
it is a total function of the phase oracles), its metadata carries the county
id, identifier, identifier type and the attempt times, and when any lifecycle
phase raises, the outcome is a failure whose error is the original
`ScraperError` if the raised error was one, and otherwise an `UNKNOWN_ERROR`
carrying the original error as detail. -/
theorem scrape_outcome_contract (cfg : CountyConfig) (req : ScrapeRequest) (t : TimesV)
    (env : ScrapeEnv) :
    ((scrape cfg req t env).1.metadata =
      { countyId := cfg.id, identifier := req.identifier,
        identifierType := req.identifierType, startTime := t.startTime,
        endTime := t.endTime, duration := t.duration }) ∧
    (firstFailure cfg env = none →
      (scrape cfg req t env).1.success = true ∧ (scrape cfg req t env).1.error = none) ∧
    (∀ s : ScraperErrorS, firstFailure cfg env = some (.scraper s) →
      (scrape cfg req t env).1.success = false ∧
      (scrape cfg req t env).1.error =
        some { code := s.code.str, message := s.message, details := s.details }) ∧
    (∀ m : String, firstFailure cfg env = some (.plain m) →
      (scrape cfg req t env).1.success = false ∧
      (scrape cfg req t env).1.error =
        some { code := ErrorCode.UNKNOWN_ERROR.str, message := m,
               details := .caughtErr m }) := by
  cases hs : env.setupBrowser with
  | error e =>
    have hf : firstFailure cfg env = some e := by unfold firstFailure; rw [hs]
    cases e with
    | scraper s =>
      simp [scrape, hs, hf, failureResult, toScraperError, mkMetadata]
    | plain m =>
      simp [scrape, hs, hf, failureResult, toScraperError, mkMetadata]
  | ok b =>
    cases ha : scrapeAttempt cfg env b with
    | ok d =>
      have hf : firstFailure cfg env = none := (firstFailure_attempt cfg env b hs).2 d ha
      simp [scrape, hs, ha, hf, successResult, mkMetadata]
    | error e =>
      have hf : firstFailure cfg env = some e := (firstFailure_attempt cfg env b hs).1 e ha
      cases e with
      | scraper s =>
        simp [scrape, hs, ha, hf, failureResult, toScraperError, mkMetadata]
      | plain m =>
        simp [scrape, hs, ha, hf, failureResult, toScraperError, mkMetadata]

/-- Witness for C1: with every infrastructure phase succeeding and a search
hook that raises a plain JavaScript error, the outcome is a failure carrying
`UNKNOWN_ERROR` with the original message as detail. -/
theorem scrape_outcome_contract_witness :
    (scrape { id := "clay" }
        { countyId := "clay", identifierType := .parcelId, identifier := "A-1" }
        { startTime := "s", endTime := "e", duration := 5 }
        { setupBrowser := .ok 0, createPage := fun _ => .ok 0,
          navigateToSearch := fun _ => .ok (),
          performSearch := fun _ => .error (.plain "boom"),
          waitForResults := fun _ => .ok (),
          extractPropertyData := fun _ => .error (.plain "unreached") }).1.success = false ∧
    (scrape { id := "clay" }
        { countyId := "clay", identifierType := .parcelId, identifier := "A-1" }
        { startTime := "s", endTime := "e", duration := 5 }
        { setupBrowser := .ok 0, createPage := fun _ => .ok 0,
          navigateToSearch := fun _ => .ok (),
          performSearch := fun _ => .error (.plain "boom"),
          waitForResults := fun _ => .ok (),
          extractPropertyData := fun _ => .error (.plain "unreached") }).1.error =
      some { code := "UNKNOWN_ERROR", message := "boom", details := .caughtErr "boom" } := by
  exact (scrape_outcome_contract { id := "clay" }
    { countyId := "clay", identifierType := .parcelId, identifier := "A-1" }
    { startTime := "s", endTime := "e", duration := 5 }
    { setupBrowser := .ok 0, createPage := fun _ => .ok 0,
      navigateToSearch := fun _ => .ok (),
      performSearch := fun _ => .error (.plain "boom"),
      waitForResults := fun _ => .ok (),
      extractPropertyData := fun _ => .error (.plain "unreached") }).2.2.2 "boom" rfl

/-- C2: the `finally` block of `BaseScraper.scrape` releases the browser
session exactly once whenever acquisition succeeded — whatever the attempt
then did — and never when acquisition failed. -/
theorem scrape_releases_browser_once (cfg : CountyConfig) (req : ScrapeRequest) (t : TimesV)
    (env : ScrapeEnv) :
    (∀ b, env.setupBrowser = .ok b → (scrape cfg req t env).2 = [b]) ∧
    (∀ e, env.setupBrowser = .error e → (scrape cfg req t env).2 = []) := by
  constructor
  · intro b hb
    cases h : scrapeAttempt cfg env b <;> simp [scrape, hb, h]
  · intro e he
    simp [scrape, he]

/-- Witness for C2: with a successful acquisition and a faulting extraction
the release list is exactly the acquired session; with a failed acquisition it
is empty. -/
theorem scrape_releases_browser_once_witness :
    (scrape { id := "clay" }
        { countyId := "clay", identifierType := .parcelId, identifier := "A-1" }
        { startTime := "s", endTime := "e", duration := 5 }
        { setupBrowser := .ok 7, createPage := fun _ => .ok 0,
          navigateToSearch := fun _ => .ok (), performSearch := fun _ => .ok (),
          waitForResults := fun _ => .ok (),
          extractPropertyData := fun _ => .error (.plain "boom") }).2 = [7] ∧
    (scrape { id := "clay" }
        { countyId := "clay", identifierType := .parcelId, identifier := "A-1" }
        { startTime := "s", endTime := "e", duration := 5 }
        { setupBrowser := .error (.plain "no chrome"), createPage := fun _ => .ok 0,
          navigateToSearch := fun _ => .ok (), performSearch := fun _ => .ok (),
          waitForResults := fun _ => .ok (),
          extractPropertyData := fun _ => .error (.plain "boom") }).2 = [] := by
  constructor
  · exact (scrape_releases_browser_once { id := "clay" }
      { countyId := "clay", identifierType := .parcelId, identifier := "A-1" }
      { startTime := "s", endTime := "e", duration := 5 }
      { setupBrowser := .ok 7, createPage := fun _ => .ok 0,
        navigateToSearch := fun _ => .ok (), performSearch := fun _ => .ok (),
        waitForResults := fun _ => .ok (),
        extractPropertyData := fun _ => .error (.plain "boom") }).1 7 rfl
  · exact (scrape_releases_browser_once { id := "clay" }
      { countyId := "clay", identifierType := .parcelId, identifier := "A-1" }
      { startTime := "s", endTime := "e", duration := 5 }
      { setupBrowser := .error (.plain "no chrome"), createPage := fun _ => .ok 0,
        navigateToSearch := fun _ => .ok (), performSearch := fun _ => .ok (),
        waitForResults := fun _ => .ok (),
        extractPropertyData := fun _ => .error (.plain "boom") }).2 (.plain "no chrome") rfl

/-- C3: with working infrastructure, the post-extraction checks enforce the
minimum viable record rule: an empty merged owner name fails the attempt with
`NO_RESULTS_FOUND`; an owner name with an empty mailing address fails it with
`EXTRACTION_FAILED`; and only a candidate with both fields non-empty is
returned as a success — never a partial record. -/
theorem clay_minimum_viable_record (cfg : CountyConfig) (req : ScrapeRequest) (t : TimesV)
    (scrapedAt ownerName mailingAddress : String) :
    (ownerName = "" →
      (scrape cfg req t
        (okEnvWith (clayFinishExtraction cfg req scrapedAt ownerName mailingAddress))).1.success
          = false ∧
      (scrape cfg req t
        (okEnvWith (clayFinishExtraction cfg req scrapedAt ownerName mailingAddress))).1.error =
        some { code := ErrorCode.NO_RESULTS_FOUND.str
               message := (createNoResultsError cfg.id req.identifier).message
               details := .noneD }) ∧
    (ownerName ≠ "" → mailingAddress = "" →
      (scrape cfg req t
        (okEnvWith (clayFinishExtraction cfg req scrapedAt ownerName mailingAddress))).1.success
          = false ∧
      (scrape cfg req t
        (okEnvWith (clayFinishExtraction cfg req scrapedAt ownerName mailingAddress))).1.error =
        some { code := ErrorCode.EXTRACTION_FAILED.str
               message := "Failed to extract mailing address"
               details := .noneD }) ∧
    (ownerName ≠ "" → mailingAddress ≠ "" →
      (scrape cfg req t
        (okEnvWith (clayFinishExtraction cfg req scrapedAt ownerName mailingAddress))).1.success
          = true ∧
      (scrape cfg req t
        (okEnvWith (clayFinishExtraction cfg req scrapedAt ownerName mailingAddress))).1.data =
        some { ownerNames := [ownerName]
               mailingAddress := .str mailingAddress
               countyId := cfg.id
               identifier := req.identifier
               identifierType := req.identifierType
               scrapedAt := scrapedAt }) := by
  refine ⟨?_, ?_, ?_⟩
  · intro h0
    constructor <;>
      simp [scrape, scrapeAttempt, okEnvWith, clayFinishExtraction, h0, failureResult,
        toScraperError, createNoResultsError, mkMetadata]
  · intro h0 h1
    constructor <;>
      simp [scrape, scrapeAttempt, okEnvWith, clayFinishExtraction, h0, h1, failureResult,
        toScraperError, mkMetadata]
  · intro h0 h1
    constructor <;>
      simp [scrape, scrapeAttempt, okEnvWith, clayFinishExtraction, h0, h1,
        validatePropertyData, MailingAddressV.truthy, successResult, mkMetadata]

/-- Witness for C3: an extraction that merges no owner name at all produces a
`NO_RESULTS_FOUND` failure, and one with an owner but no address produces an
`EXTRACTION_FAILED` failure. -/
theorem clay_minimum_viable_record_witness :
    ((scrape { id := "demo" }
        { countyId := "demo", identifierType := .parcelId, identifier := "A-1" }
        { startTime := "s", endTime := "e", duration := 5 }
        (okEnvWith (clayFinishExtraction { id := "demo" }
          { countyId := "demo", identifierType := .parcelId, identifier := "A-1" }
          "now" "" "1 MAIN ST"))).1.success = false ∧
      (scrape { id := "demo" }
        { countyId := "demo", identifierType := .parcelId, identifier := "A-1" }
        { startTime := "s", endTime := "e", duration := 5 }
        (okEnvWith (clayFinishExtraction { id := "demo" }
          { countyId := "demo", identifierType := .parcelId, identifier := "A-1" }
          "now" "" "1 MAIN ST"))).1.error =
        some { code := ErrorCode.NO_RESULTS_FOUND.str
               message := (createNoResultsError "demo" "A-1").message
               details := .noneD }) ∧
    ((scrape { id := "demo" }
        { countyId := "demo", identifierType := .parcelId, identifier := "A-1" }
        { startTime := "s", endTime := "e", duration := 5 }
        (okEnvWith (clayFinishExtraction { id := "demo" }
          { countyId := "demo", identifierType := .parcelId, identifier := "A-1" }
          "now" "JOHN DOE" ""))).1.success = false ∧
      (scrape { id := "demo" }
        { countyId := "demo", identifierType := .parcelId, identifier := "A-1" }
        { startTime := "s", endTime := "e", duration := 5 }
        (okEnvWith (clayFinishExtraction { id := "demo" }
          { countyId := "demo", identifierType := .parcelId, identifier := "A-1" }
          "now" "JOHN DOE" ""))).1.error =
        some { code := ErrorCode.EXTRACTION_FAILED.str
               message := "Failed to extract mailing address"
               details := .noneD }) := by
  constructor
  · exact (clay_minimum_viable_record { id := "demo" }
      { countyId := "demo", identifierType := .parcelId, identifier := "A-1" }
      { startTime := "s", endTime := "e", duration := 5 } "now" "" "1 MAIN ST").1 rfl
  · exact (clay_minimum_viable_record { id := "demo" }
      { countyId := "demo", identifierType := .parcelId, identifier := "A-1" }
      { startTime := "s", endTime := "e", duration := 5 } "now" "JOHN DOE" "").2.1
      (by decide) rfl

/-- C10: `BaseScraper.validatePropertyData` only checks that the owner list is
non-empty and the mailing address truthy, not that individual owner strings
are non-empty: any record with a non-empty owner list (even all-empty
strings) and a non-empty mailing address string passes validation, and the
scrape succeeds returning that record unchanged. -/
theorem validate_shallow_owner_check (cfg : CountyConfig) (req : ScrapeRequest) (t : TimesV)
    (data : PropertyOwnerData) (s : String)
    (h1 : data.ownerNames ≠ []) (h2 : data.mailingAddress = .str s) (h3 : s ≠ "") :
    validatePropertyData cfg data = .ok () ∧
    (scrape cfg req t (okEnvWith (.ok data))).1.success = true ∧
    (scrape cfg req t (okEnvWith (.ok data))).1.data = some data := by
  have hv : validatePropertyData cfg data = .ok () := by
    unfold validatePropertyData
    rw [if_neg (by simp [h1]), if_neg (by simp [h2, MailingAddressV.truthy, h3])]
  refine ⟨hv, ?_, ?_⟩ <;>
    simp [scrape, scrapeAttempt, okEnvWith, hv, successResult]

/-- Witness for C10: a record whose only owner name is the empty string and
whose mailing address is a non-empty raw string passes validation and is
returned unchanged as a success. -/
theorem validate_shallow_owner_check_witness :
    validatePropertyData { id := "clay" }
      { ownerNames := [""], mailingAddress := .str "123 MAIN ST", countyId := "clay",
        identifier := "A-1", identifierType := .parcelId, scrapedAt := "now" } = .ok () ∧
    (scrape { id := "clay" }
      { countyId := "clay", identifierType := .parcelId, identifier := "A-1" }
      { startTime := "s", endTime := "e", duration := 5 }
      (okEnvWith (.ok
        { ownerNames := [""], mailingAddress := .str "123 MAIN ST", countyId := "clay",
          identifier := "A-1", identifierType := .parcelId,
          scrapedAt := "now" }))).1.success = true ∧
    (scrape { id := "clay" }
      { countyId := "clay", identifierType := .parcelId, identifier := "A-1" }
      { startTime := "s", endTime := "e", duration := 5 }
      (okEnvWith (.ok
        { ownerNames := [""], mailingAddress := .str "123 MAIN ST", countyId := "clay",
          identifier := "A-1", identifierType := .parcelId, scrapedAt := "now" }))).1.data =
      some { ownerNames := [""], mailingAddress := .str "123 MAIN ST", countyId := "clay",
             identifier := "A-1", identifierType := .parcelId, scrapedAt := "now" } :=
  validate_shallow_owner_check { id := "clay" }
    { countyId := "clay", identifierType := .parcelId, identifier := "A-1" }
    { startTime := "s", endTime := "e", duration := 5 }
    { ownerNames := [""], mailingAddress := .str "123 MAIN ST", countyId := "clay",
      identifier := "A-1", identifierType := .parcelId, scrapedAt := "now" }
    "123 MAIN ST" (by decide) rfl (by decide)

/-- Splitting a list by a Boolean predicate preserves its length. -/
theorem length_filter_add_length_filter_not {α : Type} (l : List α) (p : α → Bool) :
    (l.filter p).length + (l.filter (fun a => !p a)).length = l.length := by
  induction l with
  | nil => rfl
  | cons a t ih =>
    by_cases h : p a <;> simp [List.filter_cons, h] <;> omega

/-- C8: `runTestCases` runs the cases one at a time in input order (the result
list is the input list mapped through `runTestCase`, order preserved),
`totalTests` is the input length, `passedTests` and `failedTests` count the
passed and failed results and sum to `totalTests`; and a case whose scrape
returns a failure yields a failed result with no assertions and the
classified error message surfaced in `error`. -/
theorem runTestCases_spec (oracle : TestCaseV → Except SrcError ScrapeResult)
    (cases : List TestCaseV) :
    (runTestCases oracle cases).totalTests = cases.length ∧
    (runTestCases oracle cases).results = cases.map (runTestCase oracle) ∧
    (runTestCases oracle cases).passedTests =
      ((runTestCases oracle cases).results.filter (fun r => r.passed)).length ∧
    (runTestCases oracle cases).failedTests =
      ((runTestCases oracle cases).results.filter (fun r => !r.passed)).length ∧
    (runTestCases oracle cases).passedTests + (runTestCases oracle cases).failedTests =
      (runTestCases oracle cases).totalTests ∧
    (∀ tc sr, oracle tc = .ok sr → sr.success = false →
      (runTestCase oracle tc).passed = false ∧
      (runTestCase oracle tc).assertions = [] ∧
      ∀ einfo, sr.error = some einfo → einfo.message ≠ "" →
        (runTestCase oracle tc).error = some einfo.message) := by
  refine ⟨rfl, rfl, rfl, rfl, ?_, ?_⟩
  · simp only [runTestCases]
    rw [length_filter_add_length_filter_not (cases.map (runTestCase oracle)) (fun r => r.passed)]
    exact List.length_map cases (runTestCase oracle)
  · intro tc sr hok hfail
    have hr : runTestCase oracle tc =
        { testCaseId := tc.id, testCaseName := tc.name, passed := false,
          scrapeResult := sr, assertions := [],
          error := some (scrapeFailMessage sr) } := by
      unfold runTestCase
      rw [hok]
      simp [hfail]
    refine ⟨by rw [hr], by rw [hr], ?_⟩
    intro einfo he hm
    rw [hr]
    simp only [scrapeFailMessage, he, if_neg hm]

/-- Witness for C8: the spec batch scenario — three cases of which the third
fails — reports totals 3/2/1, and the failing case carries the classified
error message with no assertions. -/
theorem runTestCases_spec_witness :
    (runTestCases demoOracle [demoCase "1", demoCase "2", demoCase "3"]).totalTests = 3 ∧
    (runTestCases demoOracle [demoCase "1", demoCase "2", demoCase "3"]).passedTests = 2 ∧
    (runTestCases demoOracle [demoCase "1", demoCase "2", demoCase "3"]).failedTests = 1 ∧
    (runTestCases demoOracle [demoCase "1", demoCase "2", demoCase "3"]).results =
      [demoCase "1", demoCase "2", demoCase "3"].map (runTestCase demoOracle) ∧
    (runTestCase demoOracle (demoCase "3")).passed = false ∧
    (runTestCase demoOracle (demoCase "3")).assertions = [] ∧
    (runTestCase demoOracle (demoCase "3")).error = some "no results" := by
  have h := runTestCases_spec demoOracle [demoCase "1", demoCase "2", demoCase "3"]
  have h3 := h.2.2.2.2.2 (demoCase "3") demoFailResult rfl rfl
  exact ⟨h.1, by decide, by decide, h.2.1, h3.1, h3.2.1,
    h3.2.2 { code := "NO_RESULTS_FOUND", message := "no results" } rfl (by decide)⟩

/-- Counterexample for C9 as stated: a disabled county is mapped by the POST
handler to the generic failure status 500, not to the not-found status 404
(which the handler reserves for `COUNTY_NOT_FOUND` alone). -/
theorem route_disabled_status_counterexample :
    postScrape (fun s => if s = "clay" then some { id := "clay", enabled := false } else none)
        (fun _ _ => demoOkResult)
        { countyId := "clay", identifierType := .parcelId, identifier := "A-1" } =
      .errorBody
        { success := false, code := "COUNTY_DISABLED",
          message := (createCountyDisabledError "clay").message, details := .noneD } 500 ∧
    (500 : Nat) ≠ 404 := by
  exact ⟨rfl, by decide⟩

/-- C9 (amended): the transport layer maps `COUNTY_NOT_FOUND` to the
not-found status 404, while `COUNTY_DISABLED` and every other error kind map
to the generic failure status 500; the response always carries the full
classified error (code, message, detail). -/
theorem route_status_mapping (configs : String → Option CountyConfig)
    (scrapeOf : CountyConfig → ScrapeRequest → ScrapeResult) (req : ScrapeRequest) :
    (configs req.countyId = none →
      postScrape configs scrapeOf req =
        .errorBody
          { success := false, code := "COUNTY_NOT_FOUND",
            message := (createCountyNotFoundError req.countyId).message,
            details := .noneD } 404) ∧
    (∀ cfg, configs req.countyId = some cfg → cfg.enabled = false →
      postScrape configs scrapeOf req =
        .errorBody
          { success := false, code := "COUNTY_DISABLED",
            message := (createCountyDisabledError req.countyId).message,
            details := .noneD } 500) ∧
    (∀ e : ScraperErrorS, e.code ≠ .COUNTY_NOT_FOUND → (scraperErrorResponse e).2 = 500) ∧
    (∀ e : ScraperErrorS, (scraperErrorResponse e).1 =
      { success := false, code := e.code.str, message := e.message, details := e.details }) ∧
    (∀ cfg, configs req.countyId = some cfg → cfg.enabled = true →
      postScrape configs scrapeOf req =
        .scrapeOutcome (scrapeOf cfg req)
          (if (scrapeOf cfg req).success then 200 else 500)) := by
  refine ⟨?_, ?_, ?_, ?_, ?_⟩
  · intro h
    simp [postScrape, loadCountyConfig, h, scraperErrorResponse, scraperErrorStatus,
      createCountyNotFoundError, ErrorCode.str]
  · intro cfg hc hd
    simp [postScrape, loadCountyConfig, hc, hd, scraperErrorResponse, scraperErrorStatus,
      createCountyDisabledError, ErrorCode.str]
  · intro e he
    simp [scraperErrorResponse, scraperErrorStatus, he]
  · intro e
    rfl
  · intro cfg hc hen
    simp [postScrape, loadCountyConfig, hc, hen]

/-- Witness for C9 (amended): an unknown county gets 404, a disabled county
gets 500 with the full classified error, a non-`COUNTY_NOT_FOUND` kind gets
500, and an enabled county serializes its scrape outcome. -/
theorem route_status_mapping_witness :
    postScrape (fun _ => none) (fun _ _ => demoOkResult)
        { countyId := "nowhere", identifierType := .parcelId, identifier := "A-1" } =
      .errorBody
        { success := false, code := "COUNTY_NOT_FOUND",
          message := (createCountyNotFoundError "nowhere").message, details := .noneD } 404 ∧
    postScrape (fun s => if s = "clay" then some { id := "clay", enabled := false } else none)
        (fun _ _ => demoOkResult)
        { countyId := "clay", identifierType := .parcelId, identifier := "A-1" } =
      .errorBody
        { success := false, code := "COUNTY_DISABLED",
          message := (createCountyDisabledError "clay").message, details := .noneD } 500 ∧
    (scraperErrorResponse (createCountyDisabledError "clay")).2 = 500 ∧
    postScrape (fun s => if s = "clay" then some { id := "clay" } else none)
        (fun _ _ => demoFailResult)
        { countyId := "clay", identifierType := .parcelId, identifier := "A-1" } =
      .scrapeOutcome demoFailResult 500 := by
  refine ⟨(route_status_mapping (fun _ => none) (fun _ _ => demoOkResult)
      { countyId := "nowhere", identifierType := .parcelId, identifier := "A-1" }).1 rfl,
    (route_status_mapping _ (fun _ _ => demoOkResult)
      { countyId := "clay", identifierType := .parcelId, identifier := "A-1" }).2.1
      { id := "clay", enabled := false } rfl rfl,
    (route_status_mapping (fun _ => none) (fun _ _ => demoOkResult)
      { countyId := "clay", identifierType := .parcelId, identifier := "A-1" }).2.2.1
      (createCountyDisabledError "clay") (by decide), ?_⟩
  have h := (route_status_mapping (fun s => if s = "clay" then some { id := "clay" } else none)
    (fun _ _ => demoFailResult)
    { countyId := "clay", identifierType := .parcelId, identifier := "A-1" }).2.2.2.2
    { id := "clay" } rfl rfl
  rw [h]
  rfl

/-- A three-way minimum is one of its arguments. -/
theorem min3_cases (a b c : Nat) :
    min a (min b c) = a ∨ min a (min b c) = b ∨ min a (min b c) = c := by
  omega

/-- A three-way minimum is below each argument. -/
theorem min3_le (a b c : Nat) :
    min a (min b c) ≤ a ∧ min a (min b c) ≤ b ∧ min a (min b c) ≤ c := by
  omega

/-- Edit distance to the empty list is the length. -/
theorem editDistance_nil_right (xs : List Char) : editDistance xs [] = xs.length := by
  cases xs <;> simp [editDistance]

/-- Edit distance from the empty list is the length. -/
theorem editDistance_nil_left (ys : List Char) : editDistance [] ys = ys.length := by
  simp [editDistance]

/-- Copying a shared head character is free. -/
theorem editDistance_cons_same (a : Char) (xs ys : List Char) :
    editDistance (a :: xs) (a :: ys) = editDistance xs ys := by
  simp [editDistance]

/-- Substituting the head characters costs at most one. -/
theorem editDistance_cons_le_subst (a b : Char) (xs ys : List Char) :
    editDistance (a :: xs) (b :: ys) ≤ editDistance xs ys + 1 := by
  by_cases hab : a = b
  · subst hab
    rw [editDistance_cons_same]
    omega
  · have heq : editDistance (a :: xs) (b :: ys) =
        1 + min (editDistance xs ys)
          (min (editDistance (a :: xs) ys) (editDistance xs (b :: ys))) := by
      simp [editDistance, hab]
    rw [heq]
    have := (min3_le (editDistance xs ys) (editDistance (a :: xs) ys)
      (editDistance xs (b :: ys))).1
    omega

/-- Prepending one character to either string moves the edit distance by at
most one, in both directions (proved simultaneously by strong induction on
the combined length). -/
theorem editDistance_step_bounds :
    ∀ (n : Nat) (xs ys : List Char), xs.length + ys.length ≤ n →
      (∀ a, editDistance (a :: xs) ys ≤ editDistance xs ys + 1) ∧
      (∀ b, editDistance xs (b :: ys) ≤ editDistance xs ys + 1) ∧
      (∀ a, editDistance xs ys ≤ editDistance (a :: xs) ys + 1) ∧
      (∀ b, editDistance xs ys ≤ editDistance xs (b :: ys) + 1) := by
  intro n
  induction n with
  | zero =>
    intro xs ys h
    have hx : xs = [] := by cases xs <;> simp_all
    have hy : ys = [] := by cases ys <;> simp_all
    subst hx; subst hy
    refine ⟨?_, ?_, ?_, ?_⟩ <;> intro c <;>
      simp [editDistance_nil_left, editDistance_nil_right]
  | succ n ih =>
    intro xs ys h
    refine ⟨?_, ?_, ?_, ?_⟩
    · intro a
      cases ys with
      | nil => simp [editDistance_nil_right]
      | cons b bs =>
        by_cases hab : a = b
        · have heq : editDistance (a :: xs) (b :: bs) = editDistance xs bs := by
            subst hab; exact editDistance_cons_same a xs bs
          rw [heq]
          exact (ih xs bs (by simp only [List.length_cons] at h; omega)).2.2.2 b
        · have heq : editDistance (a :: xs) (b :: bs) =
              1 + min (editDistance xs bs)
                (min (editDistance (a :: xs) bs) (editDistance xs (b :: bs))) := by
            simp [editDistance, hab]
          rw [heq]
          have := (min3_le (editDistance xs bs) (editDistance (a :: xs) bs)
            (editDistance xs (b :: bs))).2.2
          omega
    · intro b
      cases xs with
      | nil => simp [editDistance_nil_left]
      | cons a as =>
        by_cases hab : a = b
        · have heq : editDistance (a :: as) (b :: ys) = editDistance as ys := by
            subst hab; exact editDistance_cons_same a as ys
          rw [heq]
          exact (ih as ys (by simp only [List.length_cons] at h; omega)).2.2.1 a
        · have heq : editDistance (a :: as) (b :: ys) =
              1 + min (editDistance as ys)
                (min (editDistance (a :: as) ys) (editDistance as (b :: ys))) := by
            simp [editDistance, hab]
          rw [heq]
          have := (min3_le (editDistance as ys) (editDistance (a :: as) ys)
            (editDistance as (b :: ys))).2.1
          omega
    · intro a
      cases ys with
      | nil =>
        rw [editDistance_nil_right, editDistance_nil_right]
        simp only [List.length_cons]
        omega
      | cons b bs =>
        by_cases hab : a = b
        · have heq : editDistance (a :: xs) (b :: bs) = editDistance xs bs := by
            subst hab; exact editDistance_cons_same a xs bs
          rw [heq]
          exact (ih xs bs (by simp only [List.length_cons] at h; omega)).2.1 b
        · have heq : editDistance (a :: xs) (b :: bs) =
              1 + min (editDistance xs bs)
                (min (editDistance (a :: xs) bs) (editDistance xs (b :: bs))) := by
            simp [editDistance, hab]
          rw [heq]
          have hB : editDistance xs (b :: bs) ≤ editDistance xs bs + 1 :=
            (ih xs bs (by simp only [List.length_cons] at h; omega)).2.1 b
          have hC : editDistance xs bs ≤ editDistance (a :: xs) bs + 1 :=
            (ih xs bs (by simp only [List.length_cons] at h; omega)).2.2.1 a
          rcases min3_cases (editDistance xs bs) (editDistance (a :: xs) bs)
            (editDistance xs (b :: bs)) with hm | hm | hm <;> rw [hm] <;> omega
    · intro b
      cases xs with
      | nil =>
        rw [editDistance_nil_left, editDistance_nil_left]
        simp only [List.length_cons]
        omega
      | cons a as =>
        by_cases hab : a = b
        · have heq : editDistance (a :: as) (b :: ys) = editDistance as ys := by
            subst hab; exact editDistance_cons_same a as ys
          rw [heq]
          exact (ih as ys (by simp only [List.length_cons] at h; omega)).1 a
        · have heq : editDistance (a :: as) (b :: ys) =
              1 + min (editDistance as ys)
                (min (editDistance (a :: as) ys) (editDistance as (b :: ys))) := by
            simp [editDistance, hab]
          rw [heq]
          have hA : editDistance (a :: as) ys ≤ editDistance as ys + 1 :=
            (ih as ys (by simp only [List.length_cons] at h; omega)).1 a
          have hD : editDistance as ys ≤ editDistance as (b :: ys) + 1 :=
            (ih as ys (by simp only [List.length_cons] at h; omega)).2.2.2 b
          rcases min3_cases (editDistance as ys) (editDistance (a :: as) ys)
            (editDistance as (b :: ys)) with hm | hm | hm <;> rw [hm] <;> omega

/-- No edit script beats the textbook recursion: `editDistance` is a lower
bound on the cost of every script. -/
theorem edits_le {n : Nat} {xs ys : List Char} (h : Edits n xs ys) :
    editDistance xs ys ≤ n := by
  induction h with
  | nil => simp [editDistance_nil_left]
  | copy a h ih =>
    rw [editDistance_cons_same]
    exact ih
  | subst a b h ih =>
    exact le_trans (editDistance_cons_le_subst a b _ _) (Nat.add_le_add_right ih 1)
  | delete a h ih =>
    exact le_trans ((editDistance_step_bounds _ _ _ le_rfl).1 a) (Nat.add_le_add_right ih 1)
  | insert b h ih =>
    exact le_trans ((editDistance_step_bounds _ _ _ le_rfl).2.1 b) (Nat.add_le_add_right ih 1)

/-- The textbook recursion is achieved by some edit script. -/
theorem edits_achieve :
    ∀ (n : Nat) (xs ys : List Char), xs.length + ys.length ≤ n →
      Edits (editDistance xs ys) xs ys := by
  intro n
  induction n with
  | zero =>
    intro xs ys h
    have hx : xs = [] := by cases xs <;> simp_all
    have hy : ys = [] := by cases ys <;> simp_all
    subst hx; subst hy
    rw [show editDistance [] [] = 0 from editDistance_nil_left []]
    exact .nil
  | succ n ih =>
    intro xs ys h
    cases xs with
    | nil =>
      cases ys with
      | nil =>
        rw [show editDistance [] [] = 0 from editDistance_nil_left []]
        exact .nil
      | cons b bs =>
        rw [show editDistance [] (b :: bs) = bs.length + 1 from by
          rw [editDistance_nil_left]; rfl]
        refine Edits.insert b ?_
        have := ih [] bs (by simp only [List.length_cons, List.length_nil] at h ⊢; omega)
        rwa [editDistance_nil_left] at this
    | cons a as =>
      cases ys with
      | nil =>
        rw [show editDistance (a :: as) [] = as.length + 1 from by
          rw [editDistance_nil_right]; rfl]
        refine Edits.delete a ?_
        have := ih as [] (by simp only [List.length_cons, List.length_nil] at h ⊢; omega)
        rwa [editDistance_nil_right] at this
      | cons b bs =>
        by_cases hab : a = b
        · have heq : editDistance (a :: as) (b :: bs) = editDistance as bs := by
            subst hab; exact editDistance_cons_same a as bs
          rw [heq]
          subst hab
          exact Edits.copy a (ih as bs (by simp only [List.length_cons] at h; omega))
        · have heq : editDistance (a :: as) (b :: bs) =
              1 + min (editDistance as bs)
                (min (editDistance (a :: as) bs) (editDistance as (b :: bs))) := by
            simp [editDistance, hab]
          rw [heq]
          rcases Nat.le_total (editDistance as bs)
            (min (editDistance (a :: as) bs) (editDistance as (b :: bs))) with h1 | h1
          · rw [show 1 + min (editDistance as bs)
                (min (editDistance (a :: as) bs) (editDistance as (b :: bs))) =
                editDistance as bs + 1 from by omega]
            exact Edits.subst a b (ih as bs (by simp only [List.length_cons] at h; omega))
          · rcases Nat.le_total (editDistance (a :: as) bs) (editDistance as (b :: bs))
              with h2 | h2
            · rw [show 1 + min (editDistance as bs)
                  (min (editDistance (a :: as) bs) (editDistance as (b :: bs))) =
                  editDistance (a :: as) bs + 1 from by omega]
              exact Edits.insert b
                (ih (a :: as) bs (by simp only [List.length_cons] at h ⊢; omega))
            · rw [show 1 + min (editDistance as bs)
                  (min (editDistance (a :: as) bs) (editDistance as (b :: bs))) =
                  editDistance as (b :: bs) + 1 from by omega]
              exact Edits.delete a
                (ih as (b :: bs) (by simp only [List.length_cons] at h ⊢; omega))

/-- A free copy can be appended at the end of an edit script. -/
theorem Edits.snoc_copy {n : Nat} {xs ys : List Char} (a : Char) (h : Edits n xs ys) :
    Edits n (xs ++ [a]) (ys ++ [a]) := by
  induction h with
  | nil => exact Edits.copy a Edits.nil
  | copy c h ih => exact Edits.copy c ih
  | subst c d h ih => exact Edits.subst c d ih
  | delete c h ih => exact Edits.delete c ih
  | insert d h ih => exact Edits.insert d ih

/-- A substitution can be appended at the end of an edit script. -/
theorem Edits.snoc_subst {n : Nat} {xs ys : List Char} (a b : Char) (h : Edits n xs ys) :
    Edits (n + 1) (xs ++ [a]) (ys ++ [b]) := by
  induction h with
  | nil => exact Edits.subst a b Edits.nil
  | copy c h ih => exact Edits.copy c ih
  | subst c d h ih => exact Edits.subst c d ih
  | delete c h ih => exact Edits.delete c ih
  | insert d h ih => exact Edits.insert d ih

/-- A deletion can be appended at the end of an edit script. -/
theorem Edits.snoc_delete {n : Nat} {xs ys : List Char} (a : Char) (h : Edits n xs ys) :
    Edits (n + 1) (xs ++ [a]) ys := by
  induction h with
  | nil => exact Edits.delete a Edits.nil
  | copy c h ih => exact Edits.copy c ih
  | subst c d h ih => exact Edits.subst c d ih
  | delete c h ih => exact Edits.delete c ih
  | insert d h ih => exact Edits.insert d ih

/-- An insertion can be appended at the end of an edit script. -/
theorem Edits.snoc_insert {n : Nat} {xs ys : List Char} (b : Char) (h : Edits n xs ys) :
    Edits (n + 1) xs (ys ++ [b]) := by
  induction h with
  | nil => exact Edits.insert b Edits.nil
  | copy c h ih => exact Edits.copy c ih
  | subst c d h ih => exact Edits.subst c d ih
  | delete c h ih => exact Edits.delete c ih
  | insert d h ih => exact Edits.insert d ih

/-- Edit scripts are closed under reversing both strings. -/
theorem Edits.reverse {n : Nat} {xs ys : List Char} (h : Edits n xs ys) :
    Edits n xs.reverse ys.reverse := by
  induction h with
  | nil => exact Edits.nil
  | copy c h ih =>
    simp only [List.reverse_cons]
    exact ih.snoc_copy c
  | subst c d h ih =>
    simp only [List.reverse_cons]
    exact ih.snoc_subst c d
  | delete c h ih =>
    simp only [List.reverse_cons]
    exact ih.snoc_delete c
  | insert d h ih =>
    simp only [List.reverse_cons]
    exact ih.snoc_insert d

/-- The edit distance is invariant under reversing both strings (both are the
least cost of an edit script, and scripts reverse). -/
theorem editDistance_reverse (xs ys : List Char) :
    editDistance xs.reverse ys.reverse = editDistance xs ys := by
  have h1 : editDistance xs.reverse ys.reverse ≤ editDistance xs ys :=
    edits_le (Edits.reverse (edits_achieve (xs.length + ys.length) xs ys le_rfl))
  have h2 : editDistance xs ys ≤ editDistance xs.reverse ys.reverse := by
    have := edits_le (Edits.reverse
      (edits_achieve (xs.reverse.length + ys.reverse.length) xs.reverse ys.reverse le_rfl))
    rwa [List.reverse_reverse, List.reverse_reverse] at this
  omega

/-- The DP matrix entry `(i, j)` is the edit distance between the reversed
`j`-prefix of `str1` and the reversed `i`-prefix of `str2`. -/
theorem levMx_eq :
    ∀ (n : Nat) (s1 s2 : List Char) (i j : Nat), i + j ≤ n →
      i ≤ s2.length → j ≤ s1.length →
      levMx s1 s2 i j = editDistance ((s1.take j).reverse) ((s2.take i).reverse) := by
  intro n
  induction n with
  | zero =>
    intro s1 s2 i j hn hi hj
    have hi0 : i = 0 := by omega
    have hj0 : j = 0 := by omega
    subst hi0; subst hj0
    simp [levMx, editDistance_nil_left]
  | succ n ih =>
    intro s1 s2 i j hn hi hj
    match i, j with
    | 0, j =>
      rw [show levMx s1 s2 0 j = j from by simp [levMx]]
      rw [show (s2.take 0).reverse = ([] : List Char) from rfl]
      rw [editDistance_nil_right]
      simp [List.length_take, Nat.min_eq_left hj]
    | i + 1, 0 =>
      rw [show levMx s1 s2 (i + 1) 0 = i + 1 from by simp [levMx]]
      rw [show (s1.take 0).reverse = ([] : List Char) from rfl]
      rw [editDistance_nil_left]
      simp [List.length_take, Nat.min_eq_left hi]
    | i + 1, j + 1 =>
      have hi2 : i < s2.length := by omega
      have hj2 : j < s1.length := by omega
      have hs1 : (s1.take (j + 1)).reverse = s1.getD j ' ' :: (s1.take j).reverse := by
        rw [List.take_succ, List.getElem?_eq_getElem hj2]
        simp [List.getD, List.get?_eq_getElem?, List.getElem?_eq_getElem hj2]
      have hs2 : (s2.take (i + 1)).reverse = s2.getD i ' ' :: (s2.take i).reverse := by
        rw [List.take_succ, List.getElem?_eq_getElem hi2]
        simp [List.getD, List.get?_eq_getElem?, List.getElem?_eq_getElem hi2]
      have ihd : levMx s1 s2 i j =
          editDistance ((s1.take j).reverse) ((s2.take i).reverse) :=
        ih s1 s2 i j (by omega) (by omega) (by omega)
      have ihl : levMx s1 s2 (i + 1) j =
          editDistance ((s1.take j).reverse) ((s2.take (i + 1)).reverse) :=
        ih s1 s2 (i + 1) j (by omega) (by omega) (by omega)
      have ihu : levMx s1 s2 i (j + 1) =
          editDistance ((s1.take (j + 1)).reverse) ((s2.take i).reverse) :=
        ih s1 s2 i (j + 1) (by omega) (by omega) (by omega)
      rw [hs1, hs2]
      by_cases hc : s2.getD i ' ' = s1.getD j ' '
      · rw [show levMx s1 s2 (i + 1) (j + 1) = levMx s1 s2 i j from by
          simp only [levMx]; rw [if_pos hc]]
        rw [show editDistance (s1.getD j ' ' :: (s1.take j).reverse)
              (s2.getD i ' ' :: (s2.take i).reverse) =
            editDistance ((s1.take j).reverse) ((s2.take i).reverse) from by
          rw [hc]; exact editDistance_cons_same _ _ _]
        exact ihd
      · rw [show levMx s1 s2 (i + 1) (j + 1) =
            min (levMx s1 s2 i j + 1)
              (min (levMx s1 s2 (i + 1) j + 1) (levMx s1 s2 i (j + 1) + 1)) from by
          simp only [levMx]; rw [if_neg hc]]
        have hcc : ¬ (s1.getD j ' ' = s2.getD i ' ') := fun hx => hc hx.symm
        rw [show editDistance (s1.getD j ' ' :: (s1.take j).reverse)
              (s2.getD i ' ' :: (s2.take i).reverse) =
            1 + min (editDistance ((s1.take j).reverse) ((s2.take i).reverse))
              (min (editDistance (s1.getD j ' ' :: (s1.take j).reverse) ((s2.take i).reverse))
                (editDistance ((s1.take j).reverse)
                  (s2.getD i ' ' :: (s2.take i).reverse))) from by
          simp only [editDistance]; rw [if_neg hcc]]
        rw [← hs1, ← hs2, ihd, ihl, ihu, hs1, hs2]
        omega

/-- `levenshteinDistance` computes the (reversal-invariant) edit distance of
the two character lists. -/
theorem levenshteinDistance_eq (str1 str2 : String) :
    levenshteinDistance str1 str2 = editDistance str1.data str2.data := by
  unfold levenshteinDistance
  rw [levMx_eq (str2.data.length + str1.data.length) str1.data str2.data
    str2.data.length str1.data.length le_rfl le_rfl le_rfl]
  rw [List.take_length, List.take_length]
  exact editDistance_reverse str1.data str2.data

/-- C4: `calculateSimilarity` equals the spec reference definition — fold
both strings; equal folds (including both empty) give 1; otherwise
`1 - editDistance / max(length, length)` where `editDistance` is the minimum
number of insert/delete/substitute operations (witnessed below by an
achieving script and the lower bound over all scripts) — and a field
assertion passes exactly when this similarity is at least `0.8`. -/
theorem calculateSimilarity_matches_spec (a b : String) :
    calculateSimilarity a b = specSimilarity a b ∧
    Edits (editDistance (normalizeText a).data (normalizeText b).data)
      (normalizeText a).data (normalizeText b).data ∧
    (∀ n, Edits n (normalizeText a).data (normalizeText b).data →
      editDistance (normalizeText a).data (normalizeText b).data ≤ n) ∧
    (∀ fieldName, (mkAssertion fieldName b a).passed = true ↔
      (4 : ℚ) / 5 ≤ specSimilarity a b) := by
  have hsim : calculateSimilarity a b = specSimilarity a b := by
    unfold calculateSimilarity specSimilarity
    by_cases hn : normalizeText a = normalizeText b
    · rw [if_pos hn, if_pos hn]
    · rw [if_neg hn, if_neg hn]
      have hmax : ¬ (max (normalizeText a).length (normalizeText b).length = 0) := by
        intro h0
        apply hn
        have ha : (normalizeText a).data = [] := by
          have : (normalizeText a).data.length = 0 :=
            show (normalizeText a).length = 0 by omega
          exact List.length_eq_zero.mp this
        have hb : (normalizeText b).data = [] := by
          have : (normalizeText b).data.length = 0 :=
            show (normalizeText b).length = 0 by omega
          exact List.length_eq_zero.mp this
        exact String.ext (ha.trans hb.symm)
      rw [if_neg hmax, levenshteinDistance_eq]
  refine ⟨hsim, edits_achieve _ _ _ le_rfl, fun n h => edits_le h, ?_⟩
  intro fieldName
  have hp : (mkAssertion fieldName b a).passed =
      decide (mkRat 4 5 ≤ calculateSimilarity a b) := rfl
  rw [hp, decide_eq_true_eq, hsim]
  rw [show (mkRat 4 5 : ℚ) = (4 : ℚ) / 5 from by rw [Rat.mkRat_eq_div]; norm_num]

/-- Witness for C4: on the folded strings of `"JOHN DOE"` and `"JANE DOE"`,
the code similarity equals the reference similarity, a concrete 3-operation
script bounds the edit distance, and the assertion threshold agrees with the
reference similarity. -/
theorem calculateSimilarity_matches_spec_witness :
    calculateSimilarity "JOHN DOE" "JANE DOE" = specSimilarity "JOHN DOE" "JANE DOE" ∧
    editDistance (normalizeText "JOHN DOE").data (normalizeText "JANE DOE").data ≤ 3 ∧
    ((mkAssertion "ownerName" "JANE DOE" "JOHN DOE").passed = true ↔
      (4 : ℚ) / 5 ≤ specSimilarity "JOHN DOE" "JANE DOE") := by
  have h := calculateSimilarity_matches_spec "JOHN DOE" "JANE DOE"
  refine ⟨h.1, ?_, h.2.2.2 "ownerName"⟩
  apply h.2.2.1 3
  have hA : (normalizeText "JOHN DOE").data = ['j', 'o', 'h', 'n', ' ', 'd', 'o', 'e'] := by
    decide
  have hB : (normalizeText "JANE DOE").data = ['j', 'a', 'n', 'e', ' ', 'd', 'o', 'e'] := by
    decide
  rw [hA, hB]
  exact Edits.copy 'j' (Edits.subst 'o' 'a' (Edits.subst 'h' 'n' (Edits.subst 'n' 'e'
    (Edits.copy ' ' (Edits.copy 'd' (Edits.copy 'o' (Edits.copy 'e' Edits.nil)))))))

/-- Counterexample for C5 as stated: folding is not idempotent.  Stripping
the punctuation of `"a . b"` leaves the two spaces around the dot adjacent,
so a second fold collapses them further. -/
theorem normalizeText_not_idempotent :
    normalizeText "a . b" = "a  b" ∧
    normalizeText (normalizeText "a . b") = "a b" ∧
    normalizeText (normalizeText "a . b") ≠ normalizeText "a . b" :=
  ⟨by decide, by decide, by decide⟩

/-- Valid scalar values below the surrogate range round-trip through
`Char.ofNat`. -/
theorem toNat_ofNat_small (n : Nat) (h : n < 0xd800) : (Char.ofNat n).toNat = n := by
  rw [Char.ofNat, dif_pos (Or.inl h : Char.isValidCharNat n)]
  simp [Char.ofNatAux, Char.toNat, UInt32.toNat, UInt32.ofNat', BitVec.toNat_ofNatLt]

/-- Lowercasing an upper-case Basic Latin letter adds 32 to its code. -/
theorem toLower_toNat_upper (c : Char) (h : 65 ≤ c.toNat ∧ c.toNat ≤ 90) :
    (Char.toLower c).toNat = c.toNat + 32 := by
  simp only [Char.toLower]
  rw [if_pos (by omega : c.toNat ≥ 65 ∧ c.toNat ≤ 90)]
  exact toNat_ofNat_small (c.toNat + 32) (by omega)

/-- Lowercasing any other character is a no-op. -/
theorem toLower_eq_self (c : Char) (h : ¬(65 ≤ c.toNat ∧ c.toNat ≤ 90)) :
    Char.toLower c = c := by
  simp only [Char.toLower]
  rw [if_neg (by omega : ¬(c.toNat ≥ 65 ∧ c.toNat ≤ 90))]

/-- `Char.toLower` is idempotent. -/
theorem toLower_idem (c : Char) : Char.toLower (Char.toLower c) = Char.toLower c := by
  by_cases h : 65 ≤ c.toNat ∧ c.toNat ≤ 90
  · apply toLower_eq_self
    rw [toLower_toNat_upper c h]
    omega
  · rw [toLower_eq_self c h, toLower_eq_self c h]

/-- The first survivor of a `dropWhile` fails the predicate. -/
theorem head?_dropWhile (p : Char → Bool) :
    ∀ (l : List Char) (c : Char), (l.dropWhile p).head? = some c → p c = false := by
  intro l
  induction l with
  | nil => intro c h; simp at h
  | cons a t ih =>
    intro c h
    rw [List.dropWhile_cons] at h
    by_cases hp : p a
    · rw [if_pos hp] at h
      exact ih c h
    · rw [if_neg hp] at h
      simp only [List.head?_cons, Option.some.injEq] at h
      subst h
      exact Bool.eq_false_iff.mpr hp

/-- Members of the trimmed list are members of the original. -/
theorem jsTrim_mem {l : List Char} (c : Char) (h : c ∈ jsTrim l) : c ∈ l := by
  unfold jsTrim at h
  rw [List.mem_reverse] at h
  have h2 : c ∈ (l.dropWhile isJsSpace).reverse := (List.dropWhile_sublist _).subset h
  rw [List.mem_reverse] at h2
  exact (List.dropWhile_sublist _).subset h2

/-- The head of the trimmed list is not whitespace. -/
theorem jsTrim_head (l : List Char) :
    ∀ c, (jsTrim l).head? = some c → isJsSpace c = false := by
  intro c h
  obtain ⟨t, ht⟩ := List.dropWhile_suffix (l := (l.dropWhile isJsSpace).reverse) isJsSpace
  have hm : ((l.dropWhile isJsSpace).reverse.dropWhile isJsSpace).reverse ++ t.reverse =
      l.dropWhile isJsSpace := by
    have h3 := congrArg List.reverse ht
    simpa [List.reverse_append] using h3
  unfold jsTrim at h
  cases hX : ((l.dropWhile isJsSpace).reverse.dropWhile isJsSpace).reverse with
  | nil => rw [hX] at h; simp at h
  | cons c0 r =>
    rw [hX] at h
    simp only [List.head?_cons, Option.some.injEq] at h
    subst h
    rw [hX] at hm
    exact head?_dropWhile isJsSpace l c0 (by rw [← hm]; rfl)

/-- The last of the trimmed list is not whitespace. -/
theorem jsTrim_last (l : List Char) :
    ∀ c, (jsTrim l).getLast? = some c → isJsSpace c = false := by
  intro c h
  unfold jsTrim at h
  rw [List.getLast?_reverse] at h
  exact head?_dropWhile isJsSpace _ c h

/-- Characters of the collapsed list are either the inserted plain space or
surviving non-whitespace characters of the input. -/
theorem collapseGo_mem :
    ∀ (l : List Char) (b : Bool) (c : Char), c ∈ collapseGo b l →
      c = ' ' ∨ (c ∈ l ∧ isJsSpace c = false) := by
  intro l
  induction l with
  | nil => intro b c h; simp [collapseGo] at h
  | cons a t ih =>
    intro b c h
    by_cases ha : isJsSpace a
    · cases b with
      | true =>
        rw [show collapseGo true (a :: t) = collapseGo true t from by
          simp [collapseGo, ha]] at h
        rcases ih true c h with he | ⟨hm, hs⟩
        · exact Or.inl he
        · exact Or.inr ⟨List.mem_cons_of_mem a hm, hs⟩
      | false =>
        rw [show collapseGo false (a :: t) = ' ' :: collapseGo true t from by
          simp [collapseGo, ha]] at h
        rcases List.mem_cons.mp h with he | h2
        · exact Or.inl he
        · rcases ih true c h2 with he | ⟨hm, hs⟩
          · exact Or.inl he
          · exact Or.inr ⟨List.mem_cons_of_mem a hm, hs⟩
    · rw [show collapseGo b (a :: t) = a :: collapseGo false t from by
        simp [collapseGo, ha]] at h
      rcases List.mem_cons.mp h with he | h2
      · subst he
        exact Or.inr ⟨List.mem_cons_self _ _, Bool.eq_false_iff.mpr ha⟩
      · rcases ih false c h2 with he | ⟨hm, hs⟩
        · exact Or.inl he
        · exact Or.inr ⟨List.mem_cons_of_mem a hm, hs⟩

/-- In run-skipping mode the collapse output starts with a non-whitespace
character (if any). -/
theorem collapseGo_true_head :
    ∀ (l : List Char) (c : Char), (collapseGo true l).head? = some c →
      isJsSpace c = false := by
  intro l
  induction l with
  | nil => intro c h; simp [collapseGo] at h
  | cons a t ih =>
    intro c h
    by_cases ha : isJsSpace a
    · rw [show collapseGo true (a :: t) = collapseGo true t from by
        simp [collapseGo, ha]] at h
      exact ih c h
    · rw [show collapseGo true (a :: t) = a :: collapseGo false t from by
        simp [collapseGo, ha]] at h
      simp only [List.head?_cons, Option.some.injEq] at h
      subst h
      exact Bool.eq_false_iff.mpr ha

/-- Building `noTwoSpaces` one character at a time. -/
theorem noTwoSpaces_cons (x : Char) (X : List Char)
    (h1 : x = ' ' → ∀ c, X.head? = some c → c ≠ ' ') (h2 : noTwoSpaces X) :
    noTwoSpaces (x :: X) := by
  cases X with
  | nil => trivial
  | cons d ds =>
    refine ⟨?_, h2⟩
    rintro ⟨hx, hd⟩
    exact h1 hx d rfl hd

/-- The collapse output never has two adjacent spaces. -/
theorem collapseGo_noTwoSpaces :
    ∀ (l : List Char) (b : Bool), noTwoSpaces (collapseGo b l) := by
  intro l
  induction l with
  | nil => intro b; simp [collapseGo]; trivial
  | cons a t ih =>
    intro b
    by_cases ha : isJsSpace a
    · cases b with
      | true =>
        rw [show collapseGo true (a :: t) = collapseGo true t from by
          simp [collapseGo, ha]]
        exact ih true
      | false =>
        rw [show collapseGo false (a :: t) = ' ' :: collapseGo true t from by
          simp [collapseGo, ha]]
        apply noTwoSpaces_cons
        · intro _ c hc hceq
          have hcf := collapseGo_true_head t c hc
          rw [hceq] at hcf
          exact absurd hcf (by decide)
        · exact ih true
    · rw [show collapseGo b (a :: t) = a :: collapseGo false t from by
        simp [collapseGo, ha]]
      apply noTwoSpaces_cons
      · intro hax
        exfalso
        rw [hax] at ha
        exact ha (by decide)
      · exact ih false

/-- The collapse output keeps a non-whitespace head non-whitespace. -/
theorem collapseGo_false_head (l : List Char)
    (h : ∀ c, l.head? = some c → isJsSpace c = false) :
    ∀ c, (collapseGo false l).head? = some c → isJsSpace c = false := by
  cases l with
  | nil => intro c hc; simp [collapseGo] at hc
  | cons a t =>
    intro c hc
    have ha : isJsSpace a = false := h a rfl
    rw [show collapseGo false (a :: t) = a :: collapseGo false t from by
      simp [collapseGo, ha]] at hc
    simp only [List.head?_cons, Option.some.injEq] at hc
    subst hc
    exact ha

/-- Collapsing a non-empty list in emit mode is non-empty. -/
theorem collapseGo_false_cons_ne_nil (a : Char) (t : List Char) :
    collapseGo false (a :: t) ≠ [] := by
  by_cases ha : isJsSpace a <;> simp [collapseGo, ha]

/-- Collapsing in skip mode is non-empty when the input ends in a
non-whitespace character. -/
theorem collapseGo_true_ne_nil :
    ∀ (l : List Char), (∀ c, l.getLast? = some c → isJsSpace c = false) →
      l ≠ [] → collapseGo true l ≠ [] := by
  intro l
  induction l with
  | nil => intro _ h; exact absurd rfl h
  | cons a t ih =>
    intro hlast _
    by_cases ha : isJsSpace a
    · cases t with
      | nil =>
        have hf := hlast a (by simp)
        rw [hf] at ha
        exact absurd ha (by simp)
      | cons d ds =>
        rw [show collapseGo true (a :: d :: ds) = collapseGo true (d :: ds) from by
          simp [collapseGo, ha]]
        refine ih ?_ (by simp)
        intro c hc
        exact hlast c (by rw [List.getLast?_cons_cons]; exact hc)
    · simp [collapseGo, ha]

/-- The collapse output keeps a non-whitespace last character non-whitespace. -/
theorem collapseGo_last :
    ∀ (l : List Char) (b : Bool),
      (∀ c, l.getLast? = some c → isJsSpace c = false) →
      ∀ c, (collapseGo b l).getLast? = some c → isJsSpace c = false := by
  intro l
  induction l with
  | nil => intro b _ c hc; simp [collapseGo] at hc
  | cons a t ih =>
    intro b hlast c hc
    by_cases ha : isJsSpace a
    · cases t with
      | nil =>
        have hf := hlast a (by simp)
        rw [hf] at ha
        exact absurd ha (by simp)
      | cons d ds =>
        have hlast2 : ∀ c2, (d :: ds).getLast? = some c2 → isJsSpace c2 = false := by
          intro c2 hc2
          exact hlast c2 (by rw [List.getLast?_cons_cons]; exact hc2)
        cases b with
        | true =>
          rw [show collapseGo true (a :: d :: ds) = collapseGo true (d :: ds) from by
            simp [collapseGo, ha]] at hc
          exact ih true hlast2 c hc
        | false =>
          rw [show collapseGo false (a :: d :: ds) = ' ' :: collapseGo true (d :: ds) from by
            simp [collapseGo, ha]] at hc
          have hne : collapseGo true (d :: ds) ≠ [] :=
            collapseGo_true_ne_nil (d :: ds) hlast2 (by simp)
          cases hX : collapseGo true (d :: ds) with
          | nil => exact absurd hX hne
          | cons x xs =>
            rw [hX, List.getLast?_cons_cons] at hc
            refine ih true hlast2 c ?_
            rw [hX]
            exact hc
    · cases t with
      | nil =>
        rw [show collapseGo b [a] = [a] from by cases b <;> simp [collapseGo, ha]] at hc
        simp only [List.getLast?_singleton, Option.some.injEq] at hc
        subst hc
        exact Bool.eq_false_iff.mpr ha
      | cons d ds =>
        have hlast2 : ∀ c2, (d :: ds).getLast? = some c2 → isJsSpace c2 = false := by
          intro c2 hc2
          exact hlast c2 (by rw [List.getLast?_cons_cons]; exact hc2)
        rw [show collapseGo b (a :: d :: ds) = a :: collapseGo false (d :: ds) from by
          cases b <;> simp [collapseGo, ha]] at hc
        cases hX : collapseGo false (d :: ds) with
        | nil => exact absurd hX (collapseGo_false_cons_ne_nil d ds)
        | cons x xs =>
          rw [hX, List.getLast?_cons_cons] at hc
          refine ih false hlast2 c ?_
          rw [hX]
          exact hc

/-- Mapping a pointwise-fixed function is the identity. -/
theorem map_toLower_id (l : List Char) (h : ∀ c ∈ l, Char.toLower c = c) :
    l.map Char.toLower = l := by
  induction l with
  | nil => rfl
  | cons a t ih =>
    simp only [List.map_cons, h a (List.mem_cons_self _ _),
      ih (fun c hc => h c (List.mem_cons_of_mem a hc))]

/-- Collapsing is the identity on space-normalized text. -/
theorem collapseGo_id :
    ∀ (l : List Char), (∀ c ∈ l, okChar c) → noTwoSpaces l → collapseGo false l = l := by
  intro l
  induction l with
  | nil => intro _ _; rfl
  | cons a t ih =>
    intro hok hts
    by_cases ha : isJsSpace a
    · have haeq : a = ' ' := by
        rcases hok a (List.mem_cons_self _ _) with ⟨_, hf⟩ | he
        · rw [hf] at ha; exact absurd ha (by simp)
        · exact he
      rw [show collapseGo false (a :: t) = ' ' :: collapseGo true t from by
        simp [collapseGo, ha]]
      rw [haeq]
      congr 1
      cases t with
      | nil => rfl
      | cons d ds =>
        have hd : ¬ (isJsSpace d = true) := by
          have h1 : ¬(a = ' ' ∧ d = ' ') := hts.1
          have hd2 : d ≠ ' ' := fun hd2 => h1 ⟨haeq, hd2⟩
          rcases hok d (List.mem_cons_of_mem a (List.mem_cons_self _ _)) with ⟨_, hf⟩ | he
          · simp [hf]
          · exact absurd he hd2
        rw [show collapseGo true (d :: ds) = d :: collapseGo false ds from by
          simp [collapseGo, hd]]
        have hiht : collapseGo false (d :: ds) = d :: ds :=
          ih (fun c hc => hok c (List.mem_cons_of_mem a hc)) hts.2
        rw [show collapseGo false (d :: ds) = d :: collapseGo false ds from by
          simp [collapseGo, hd]] at hiht
        exact hiht
    · rw [show collapseGo false (a :: t) = a :: collapseGo false t from by
        simp [collapseGo, ha]]
      congr 1
      refine ih (fun c hc => hok c (List.mem_cons_of_mem a hc)) ?_
      cases t with
      | nil => trivial
      | cons d ds => exact hts.2

/-- Trimming is the identity when neither end is whitespace. -/
theorem jsTrim_id (l : List Char)
    (hh : ∀ c, l.head? = some c → isJsSpace c = false)
    (hl : ∀ c, l.getLast? = some c → isJsSpace c = false) :
    jsTrim l = l := by
  have h1 : l.dropWhile isJsSpace = l := by
    cases l with
    | nil => rfl
    | cons a t =>
      rw [List.dropWhile_cons, if_neg (by simp [hh a rfl])]
  unfold jsTrim
  rw [h1]
  have h2 : l.reverse.dropWhile isJsSpace = l.reverse := by
    cases hr : l.reverse with
    | nil => simp
    | cons a t =>
      have hal : l.getLast? = some a := by
        rw [← List.head?_reverse, hr]
        rfl
      rw [List.dropWhile_cons, if_neg (by simp [hl a hal])]
  rw [h2, List.reverse_reverse]

/-- Stripping punctuation is the identity on word-or-space text. -/
theorem stripPunct_id (l : List Char) (hok : ∀ c ∈ l, okChar c) : stripPunct l = l := by
  unfold stripPunct
  rw [List.filter_eq_self]
  intro c hc
  rcases hok c hc with ⟨hw, _⟩ | he
  · simp [hw]
  · subst he; decide

/-- Normalization fixes canonical text. -/
theorem normList_fix (l : List Char) (h : canonicalText l) : normList l = l := by
  obtain ⟨hok, hlow, hts, hh, hl⟩ := h
  unfold normList collapseWS
  rw [map_toLower_id l hlow, jsTrim_id l hh hl, collapseGo_id l hok hts]
  exact stripPunct_id l hok

/-- Every character of normalized text is a word or whitespace character. -/
theorem normList_filter_chars (l : List Char) :
    ∀ c ∈ normList l, (isWordChar c || isJsSpace c) = true := by
  intro c hc
  unfold normList stripPunct at hc
  exact (List.mem_filter.mp hc).2

/-- Every character of normalized text is fixed by lowercasing. -/
theorem normList_lower_chars (l : List Char) :
    ∀ c ∈ normList l, Char.toLower c = c := by
  intro c hc
  unfold normList stripPunct at hc
  have hc2 := (List.mem_filter.mp hc).1
  unfold collapseWS at hc2
  rcases collapseGo_mem _ false c hc2 with he | ⟨hmem, _⟩
  · subst he; decide
  · obtain ⟨x, _, hx⟩ := List.mem_map.mp (jsTrim_mem c hmem)
    rw [← hx]
    exact toLower_idem x

/-- Every character left after trimming and re-collapsing normalized text is
a word character or the plain space. -/
theorem collapse_trim_okChars (l : List Char) :
    ∀ c ∈ collapseWS (jsTrim (normList l)), okChar c := by
  intro c hc
  unfold collapseWS at hc
  rcases collapseGo_mem _ false c hc with he | ⟨hmem, hsp⟩
  · exact Or.inr he
  · have hfil := normList_filter_chars l c (jsTrim_mem c hmem)
    left
    refine ⟨?_, hsp⟩
    simp only [Bool.or_eq_true] at hfil
    rcases hfil with hw | hs
    · exact hw
    · rw [hs] at hsp; exact absurd hsp (by simp)

/-- A second normalization reduces to trim-then-collapse: mapping and
stripping are already no-ops on once-normalized text. -/
theorem normList_double (l : List Char) :
    normList (normList l) = collapseWS (jsTrim (normList l)) := by
  conv_lhs => rw [show normList (normList l) =
    stripPunct (collapseWS (jsTrim ((normList l).map Char.toLower))) from rfl]
  rw [map_toLower_id _ (normList_lower_chars l)]
  exact stripPunct_id _ (collapse_trim_okChars l)

/-- Twice-normalized text is canonical. -/
theorem normList_double_canonical (l : List Char) :
    canonicalText (normList (normList l)) := by
  rw [normList_double]
  refine ⟨collapse_trim_okChars l, ?_, ?_, ?_, ?_⟩
  · intro c hc
    unfold collapseWS at hc
    rcases collapseGo_mem _ false c hc with he | ⟨hmem, _⟩
    · subst he; decide
    · exact normList_lower_chars l c (jsTrim_mem c hmem)
  · exact collapseGo_noTwoSpaces _ false
  · exact collapseGo_false_head _ (jsTrim_head (normList l))
  · exact collapseGo_last _ false (jsTrim_last (normList l))

/-- C5 (amended): `normalizeText` is not idempotent, but is idempotent from
the second application on: a third fold equals the second fold for every
string (while `normalizeText_not_idempotent` shows a single fold is not a
fixed point on `"a . b"`). -/
theorem normalizeText_double_idempotent (s : String) :
    normalizeText (normalizeText (normalizeText s)) = normalizeText (normalizeText s) := by
  have hdata : ∀ t : String, (normalizeText t).data = normList t.data := fun _ => rfl
  have h3 : normalizeText (normalizeText (normalizeText s)) =
      String.mk (normList (normList (normList s.data))) := by
    rw [show normalizeText (normalizeText (normalizeText s)) =
      String.mk (normList ((normalizeText (normalizeText s)).data)) from rfl,
      hdata, hdata]
  have h2 : normalizeText (normalizeText s) = String.mk (normList (normList s.data)) := by
    rw [show normalizeText (normalizeText s) =
      String.mk (normList ((normalizeText s).data)) from rfl, hdata]
  rw [h3, h2, normList_fix _ (normList_double_canonical s.data)]

end AppraiserScraper
